import Mathlib

/-!
Verification of the screenshotter capture engine.

This file gives a shallow embedding, in Lean 4, of the capture engine of the
screenshotter repository (packages/widget/src/ScreenshotterWidget.tsx together
with its sibling widget implementation and the protocol package), and proves
or refutes the testable properties stated for it.

Modelling conventions:
* JavaScript numbers are modelled as rationals (ℚ).  All the arithmetic the
  claims depend on is exact at the inputs considered, so the rational model
  agrees with IEEE-754 evaluation there.
* "Math.round" is floor (x + 1/2), which is exactly the JS semantics.
* Strings are Lean strings; scanning is performed on their character lists.
* Stateful orchestration (the executeCapture callback) is modelled as a pure
  function from a configuration and an environment of capture outcomes to the
  list of observable events it emits, in program order.
-/

namespace Screenshotter

/-- JavaScript Math.round: floor of x + 1/2 (round half towards +infinity). -/
def jsRound (q : ℚ) : ℤ := ⌊q + 1 / 2⌋

/-- The clamp helper of the widget: Math.min(max, Math.max(min, value)). -/
def clampQ (value minV maxV : ℚ) : ℚ := min maxV (max minV value)

theorem jsRound_mono {q r : ℚ} (h : q ≤ r) : jsRound q ≤ jsRound r :=
  Int.floor_le_floor (by linarith)

/-- Protocol helper clampQualityToScale (packages/protocol, part_004):
bounded = Math.min(100, Math.max(1, Math.round(quality)));
scaled = 1 + (bounded - 1) / 99; return Math.round(scaled * 100) / 100. -/
def clampQualityToScale (quality : ℚ) : ℚ :=
  let bounded : ℤ := min 100 (max 1 (jsRound quality))
  let scaled : ℚ := 1 + ((bounded : ℚ) - 1) / 99
  (jsRound (scaled * 100) : ℚ) / 100

theorem clampQualityToScale_eq (q : ℚ) :
    clampQualityToScale q =
      (jsRound ((1 + (((min 100 (max 1 (jsRound q)) : ℤ) : ℚ) - 1) / 99) * 100) : ℚ) / 100 :=
  rfl

theorem scalePipeline_bounds (b : ℤ) (h1 : 1 ≤ b) (h2 : b ≤ 100) :
    1 ≤ (jsRound ((1 + ((b : ℚ) - 1) / 99) * 100) : ℚ) / 100 ∧
    (jsRound ((1 + ((b : ℚ) - 1) / 99) * 100) : ℚ) / 100 ≤ 2 := by
  have h1q : (1 : ℚ) ≤ (b : ℚ) := by exact_mod_cast h1
  have h2q : (b : ℚ) ≤ 100 := by exact_mod_cast h2
  have hlo : (100 : ℚ) ≤ (1 + ((b : ℚ) - 1) / 99) * 100 := by nlinarith
  have hhi : (1 + ((b : ℚ) - 1) / 99) * 100 ≤ 200 := by nlinarith
  have hb100 : jsRound (100 : ℚ) = 100 := by unfold jsRound; norm_num
  have hb200 : jsRound (200 : ℚ) = 200 := by unfold jsRound; norm_num
  have hrlo : (100 : ℤ) ≤ jsRound ((1 + ((b : ℚ) - 1) / 99) * 100) := by
    have := jsRound_mono hlo; rwa [hb100] at this
  have hrhi : jsRound ((1 + ((b : ℚ) - 1) / 99) * 100) ≤ 200 := by
    have := jsRound_mono hhi; rwa [hb200] at this
  have hrloq : (100 : ℚ) ≤ (jsRound ((1 + ((b : ℚ) - 1) / 99) * 100) : ℚ) := by exact_mod_cast hrlo
  have hrhiq : (jsRound ((1 + ((b : ℚ) - 1) / 99) * 100) : ℚ) ≤ 200 := by exact_mod_cast hrhi
  constructor
  · rw [le_div_iff₀ (by norm_num : (0 : ℚ) < 100)]; linarith
  · rw [div_le_iff₀ (by norm_num : (0 : ℚ) < 100)]; linarith

/-- C6.  Scale law: for every quality in [1,100], clampQualityToScale lies in
[1, 2] and is monotone non-decreasing in quality; the value at 1 is 1 and the
value at 100 is 2. -/
theorem clampQualityToScale_scale_law :
    (∀ q : ℚ, 1 ≤ q → q ≤ 100 →
      1 ≤ clampQualityToScale q ∧ clampQualityToScale q ≤ 2) ∧
    (∀ q₁ q₂ : ℚ, 1 ≤ q₁ → q₁ ≤ 100 → 1 ≤ q₂ → q₂ ≤ 100 → q₁ ≤ q₂ →
      clampQualityToScale q₁ ≤ clampQualityToScale q₂) ∧
    clampQualityToScale 1 = 1 ∧ clampQualityToScale 100 = 2 := by
  have hblow : ∀ q : ℚ, (1 : ℤ) ≤ min 100 (max 1 (jsRound q)) := fun q =>
    le_min (by norm_num) (le_max_left _ _)
  have hbhigh : ∀ q : ℚ, min 100 (max 1 (jsRound q)) ≤ (100 : ℤ) := fun q => min_le_left _ _
  refine ⟨?_, ?_, ?_, ?_⟩
  · intro q _ _
    rw [clampQualityToScale_eq]
    exact scalePipeline_bounds _ (hblow q) (hbhigh q)
  · intro q₁ q₂ _ _ _ _ hle
    rw [clampQualityToScale_eq, clampQualityToScale_eq]
    have hmono1 : jsRound q₁ ≤ jsRound q₂ := jsRound_mono hle
    have hmono2 : min 100 (max 1 (jsRound q₁)) ≤ min 100 (max 1 (jsRound q₂)) :=
      min_le_min le_rfl (max_le_max le_rfl hmono1)
    have hmono2q : ((min 100 (max 1 (jsRound q₁)) : ℤ) : ℚ) ≤
        ((min 100 (max 1 (jsRound q₂)) : ℤ) : ℚ) := by exact_mod_cast hmono2
    have hmono3 : (1 + (((min 100 (max 1 (jsRound q₁)) : ℤ) : ℚ) - 1) / 99) * 100 ≤
        (1 + (((min 100 (max 1 (jsRound q₂)) : ℤ) : ℚ) - 1) / 99) * 100 := by nlinarith
    have hmono4 : ((jsRound ((1 + (((min 100 (max 1 (jsRound q₁)) : ℤ) : ℚ) - 1) / 99) * 100) : ℤ) : ℚ) ≤
        ((jsRound ((1 + (((min 100 (max 1 (jsRound q₂)) : ℤ) : ℚ) - 1) / 99) * 100) : ℤ) : ℚ) := by
      exact_mod_cast jsRound_mono hmono3
    linarith
  · have h1 : jsRound (1 : ℚ) = 1 := by unfold jsRound; norm_num
    rw [clampQualityToScale_eq, h1]
    norm_num
    unfold jsRound
    norm_num
  · have h1 : jsRound (100 : ℚ) = 100 := by unfold jsRound; norm_num
    rw [clampQualityToScale_eq, h1]
    norm_num
    unfold jsRound
    norm_num

/-- Witness for C6 at the concrete quality 50. -/
theorem clampQualityToScale_scale_law_witness :
    1 ≤ clampQualityToScale 50 ∧ clampQualityToScale 50 ≤ 2 :=
  clampQualityToScale_scale_law.1 50 (by norm_num) (by norm_num)

/-! Crop/Compose stage (ScreenshotterWidget.tsx, getViewportCrop and
cropElementFromViewportCanvas).  Canvas dimensions are integers (device
pixels); window metrics, element rectangles, padding and scale are rationals.
The window reads (innerWidth, innerHeight, scrollX, scrollY) are passed as
explicit parameters, playing the role of the injected viewport accessor. -/

/-- A source-rectangle crop as emitted by the crop helpers. -/
structure Crop where
  sx : ℤ
  sy : ℤ
  sw : ℤ
  sh : ℤ
deriving DecidableEq

/-- getViewportCrop(scale, sourceWidth, sourceHeight):
requested = max(1, round(inner * scale)); s = max(0, round(scroll * scale));
extent = max(1, min(requested, source - s)). -/
def getViewportCrop (innerWidth innerHeight scrollX scrollY scale : ℚ)
    (sourceWidth sourceHeight : ℤ) : Crop :=
  let requestedWidth : ℤ := max 1 (jsRound (innerWidth * scale))
  let requestedHeight : ℤ := max 1 (jsRound (innerHeight * scale))
  let sx : ℤ := max 0 (jsRound (scrollX * scale))
  let sy : ℤ := max 0 (jsRound (scrollY * scale))
  ⟨sx, sy,
    max 1 (min requestedWidth (sourceWidth - sx)),
    max 1 (min requestedHeight (sourceHeight - sy))⟩

/-- cropElementFromViewportCanvas(viewportCanvas, rect, scale, paddingPx):
the source-rectangle computation (the actual pixel blit is cropCanvas):
safePadding = max(0, paddingPx); s = max(0, floor((rect.edge - pad) * scale));
requested = max(1, ceil((rect.extent + 2 * pad) * scale));
extent = max(1, min(requested, canvas - s)). -/
def cropElementFromViewportCanvas (canvasWidth canvasHeight : ℤ)
    (rectLeft rectTop rectWidth rectHeight : ℚ) (scale paddingPx : ℚ) : Crop :=
  let safePadding : ℚ := max 0 paddingPx
  let sx : ℤ := max 0 ⌊(rectLeft - safePadding) * scale⌋
  let sy : ℤ := max 0 ⌊(rectTop - safePadding) * scale⌋
  let requestedWidth : ℤ := max 1 ⌈(rectWidth + safePadding * 2) * scale⌉
  let requestedHeight : ℤ := max 1 ⌈(rectHeight + safePadding * 2) * scale⌉
  ⟨sx, sy,
    max 1 (min requestedWidth (canvasWidth - sx)),
    max 1 (min requestedHeight (canvasHeight - sy))⟩

/-- C2 counterexample.  On a 100 by 100 source canvas with a 50 by 50 window,
scrollX = 200 and scale = 1 (all within the claim's hypotheses: canvas at
least 1 by 1, scale positive), getViewportCrop emits sx = 200 and sw = 1, so
sx + sw = 201 exceeds the canvas width: the claimed containment bound
sx + sw ≤ W fails.  The minimum-1 extent overrides clamping once the crop
origin lies beyond the canvas edge. -/
theorem getViewportCrop_containment_counterexample :
    (getViewportCrop 50 50 200 0 1 100 100).sx = 200 ∧
    (getViewportCrop 50 50 200 0 1 100 100).sw = 1 ∧
    ¬ ((getViewportCrop 50 50 200 0 1 100 100).sx +
        (getViewportCrop 50 50 200 0 1 100 100).sw ≤ 100) := by
  have h50 : jsRound ((50 : ℚ) * 1) = 50 := by unfold jsRound; norm_num
  have h200 : jsRound ((200 : ℚ) * 1) = 200 := by unfold jsRound; norm_num
  have h0 : jsRound ((0 : ℚ) * 1) = 0 := by unfold jsRound; norm_num
  refine ⟨?_, ?_, ?_⟩ <;>
    simp only [getViewportCrop, h50, h200, h0] <;> norm_num

theorem crop_extent_clamped (req limit s : ℤ) (h : s < limit) :
    s + max 1 (min req (limit - s)) ≤ limit := by
  have h1 : max 1 (min req (limit - s)) ≤ limit - s :=
    max_le (by omega) (min_le_right _ _)
  omega

/-- C2 amended.  For every source canvas of size W by H (W, H at least 1) and
every requested crop, both getViewportCrop and cropElementFromViewportCanvas
emit a crop with 0 ≤ sx, 0 ≤ sy, sw ≥ 1 and sh ≥ 1; and whenever the crop
origin lies inside the canvas (sx < W, respectively sy < H) the containment
bounds sx + sw ≤ W and sy + sh ≤ H hold as well.  (Without the origin
condition containment can fail, see the counterexample.) -/
theorem crop_containment_amended
    (iw ih scx scy scale rl rt rw rh pad : ℚ) (W H : ℤ)
    (hW : 1 ≤ W) (hH : 1 ≤ H) :
    (0 ≤ (getViewportCrop iw ih scx scy scale W H).sx ∧
     0 ≤ (getViewportCrop iw ih scx scy scale W H).sy ∧
     1 ≤ (getViewportCrop iw ih scx scy scale W H).sw ∧
     1 ≤ (getViewportCrop iw ih scx scy scale W H).sh ∧
     ((getViewportCrop iw ih scx scy scale W H).sx < W →
       (getViewportCrop iw ih scx scy scale W H).sx +
         (getViewportCrop iw ih scx scy scale W H).sw ≤ W) ∧
     ((getViewportCrop iw ih scx scy scale W H).sy < H →
       (getViewportCrop iw ih scx scy scale W H).sy +
         (getViewportCrop iw ih scx scy scale W H).sh ≤ H)) ∧
    (0 ≤ (cropElementFromViewportCanvas W H rl rt rw rh scale pad).sx ∧
     0 ≤ (cropElementFromViewportCanvas W H rl rt rw rh scale pad).sy ∧
     1 ≤ (cropElementFromViewportCanvas W H rl rt rw rh scale pad).sw ∧
     1 ≤ (cropElementFromViewportCanvas W H rl rt rw rh scale pad).sh ∧
     ((cropElementFromViewportCanvas W H rl rt rw rh scale pad).sx < W →
       (cropElementFromViewportCanvas W H rl rt rw rh scale pad).sx +
         (cropElementFromViewportCanvas W H rl rt rw rh scale pad).sw ≤ W) ∧
     ((cropElementFromViewportCanvas W H rl rt rw rh scale pad).sy < H →
       (cropElementFromViewportCanvas W H rl rt rw rh scale pad).sy +
         (cropElementFromViewportCanvas W H rl rt rw rh scale pad).sh ≤ H)) := by
  constructor
  · refine ⟨le_max_left _ _, le_max_left _ _, le_max_left _ _, le_max_left _ _, ?_, ?_⟩
    · intro hx
      exact crop_extent_clamped _ _ _ hx
    · intro hy
      exact crop_extent_clamped _ _ _ hy
  · refine ⟨le_max_left _ _, le_max_left _ _, le_max_left _ _, le_max_left _ _, ?_, ?_⟩
    · intro hx
      exact crop_extent_clamped _ _ _ hx
    · intro hy
      exact crop_extent_clamped _ _ _ hy

/-- Witness for the amended C2 at a concrete in-bounds request: a 100 by 100
canvas, a 50 by 50 window scrolled to (10, 0), scale 1, and an element
rectangle at (5, 5) sized 20 by 20 with padding 4. -/
theorem crop_containment_amended_witness :
    (getViewportCrop 50 50 10 0 1 100 100).sx +
      (getViewportCrop 50 50 10 0 1 100 100).sw ≤ 100 ∧
    (cropElementFromViewportCanvas 100 100 5 5 20 20 1 4).sx +
      (cropElementFromViewportCanvas 100 100 5 5 20 20 1 4).sw ≤ 100 := by
  have h := crop_containment_amended 50 50 10 0 1 5 5 20 20 4 100 100
    (by norm_num) (by norm_num)
  have hx1 : (getViewportCrop 50 50 10 0 1 100 100).sx < 100 := by
    have h10 : jsRound ((10 : ℚ) * 1) = 10 := by unfold jsRound; norm_num
    simp only [getViewportCrop, h10]
    norm_num
  have hx2 : (cropElementFromViewportCanvas 100 100 5 5 20 20 1 4).sx < 100 := by
    have hfl : ⌊((5 : ℚ) - max 0 4) * 1⌋ = 1 := by norm_num
    simp only [cropElementFromViewportCanvas, hfl]
    norm_num
  exact ⟨h.1.2.2.2.2.1 hx1, h.2.2.2.2.2.1 hx2⟩

/-! String helpers shared by the color normalizer and the error classifiers.
JavaScript String.prototype.includes and toLowerCase are modelled on
character lists; only ASCII matters for every token involved. -/

/-- JavaScript toLowerCase on one character (ASCII range). -/
def lowerChar (c : Char) : Char := c.toLower

/-- Lowercased character list of a string. -/
def lowerList (s : List Char) : List Char := s.map lowerChar

/-- Whether the first list is a leading segment of the second. -/
def leadsList : List Char → List Char → Bool
  | [], _ => true
  | _ :: _, [] => false
  | n :: ns, h :: hs => n == h && leadsList ns hs

/-- Whether the first list occurs contiguously inside the second
(JavaScript String.prototype.includes on char lists). -/
def containsSub (needle : List Char) : List Char → Bool
  | [] => needle.isEmpty
  | h :: hs => leadsList needle (h :: hs) || containsSub needle hs

/-- JavaScript value.toLowerCase(). -/
def stringToLower (s : String) : String := String.mk (lowerList s.toList)

/-- JavaScript hay.includes(needle). -/
def includesStr (hay needle : String) : Bool := containsSub needle.toList hay.toList

/-- hasUnsupportedColorFunction(value): the lowercased value contains
"oklch" or "oklab". -/
def hasUnsupportedColorFunction (value : String) : Bool :=
  includesStr (stringToLower value) "oklch" || includesStr (stringToLower value) "oklab"

/-- A JavaScript Error value, reduced to the fields the engine inspects. -/
structure JsError where
  name : String
  message : String
deriving DecidableEq

/-- toFriendlyError(error): the message when non-empty, otherwise the
String(error) rendering, which for an Error with an empty message is its
name. -/
def toFriendlyError (e : JsError) : String :=
  if e.message ≠ "" then e.message else e.name

/-- isUnsupportedColorFunctionError(error): the lowercased friendly message
contains "unsupported color function" and an oklch / oklab token name. -/
def isUnsupportedColorFunctionError (e : JsError) : Bool :=
  let message := stringToLower (toFriendlyError e)
  includesStr message "unsupported color function" && hasUnsupportedColorFunction message

/-- The single diagnosis error thrown when the color-function condition is
detected after both html2canvas attempts fail. -/
def unresolvedColorFunctionsError : JsError :=
  ⟨"Error", "Capture failed because unsupported color functions could not be normalized."⟩

/-- renderWithHtml2Canvas, reduced to its control flow over the two internal
attempts (standard and foreign-object rendering): return the first success;
if both fail, throw the specific color diagnosis when the primary OR the
fallback attempt raised the unsupported-color-function condition, else
rethrow the fallback attempt's error.  The canvas type is abstract. -/
def renderWithHtml2Canvas (α : Type) (primary fallbackAttempt : Except JsError α) :
    Except JsError α :=
  match primary with
  | .ok c => .ok c
  | .error primaryError =>
    match fallbackAttempt with
    | .ok c => .ok c
    | .error fallbackError =>
      if isUnsupportedColorFunctionError primaryError ||
          isUnsupportedColorFunctionError fallbackError then
        .error unresolvedColorFunctionsError
      else
        .error fallbackError

/-- Primary-attempt error for the C5 counterexample: it raises the
unsupported-color-function condition. -/
def colorCexPrimaryError : JsError :=
  ⟨"Error", "Attempting to parse an unsupported color function: oklch(0.7 0.1 200)"⟩

/-- Fallback-attempt error for the C5 counterexample: an unrelated failure. -/
def colorCexFallbackError : JsError := ⟨"Error", "canvas tainted"⟩

/-- C5 counterexample.  When only the primary attempt raised the
unsupported-color-function condition (so NOT both), the claim says the
fallback attempt's raw error is propagated; the code instead throws the
specific color diagnosis, because it combines the two conditions with OR
rather than AND. -/
theorem renderWithHtml2Canvas_error_surfacing_counterexample :
    isUnsupportedColorFunctionError colorCexPrimaryError = true ∧
    isUnsupportedColorFunctionError colorCexFallbackError = false ∧
    renderWithHtml2Canvas Unit (.error colorCexPrimaryError) (.error colorCexFallbackError) ≠
      .error colorCexFallbackError ∧
    renderWithHtml2Canvas Unit (.error colorCexPrimaryError) (.error colorCexFallbackError) =
      .error unresolvedColorFunctionsError := by
  have heq : renderWithHtml2Canvas Unit (.error colorCexPrimaryError)
      (.error colorCexFallbackError) = .error unresolvedColorFunctionsError := by
    show (if (isUnsupportedColorFunctionError colorCexPrimaryError ||
        isUnsupportedColorFunctionError colorCexFallbackError) = true then
        (Except.error unresolvedColorFunctionsError : Except JsError Unit)
      else Except.error colorCexFallbackError) = Except.error unresolvedColorFunctionsError
    rw [if_pos]
    rw [Bool.or_eq_true]
    exact Or.inl (by decide)
  refine ⟨by decide, by decide, ?_, heq⟩
  rw [heq]
  intro hcontra
  have : unresolvedColorFunctionsError = colorCexFallbackError := by
    injection hcontra
  exact absurd this (by decide)

/-- C5 amended.  If both internal html2canvas attempts fail and AT LEAST ONE
of the two raised the unsupported-color-function condition, the single
specific diagnosis error is thrown; when neither raised it, the fallback
attempt's last raw error is propagated. -/
theorem renderWithHtml2Canvas_error_surfacing_amended (α : Type) (pe fe : JsError) :
    ((isUnsupportedColorFunctionError pe = true ∨ isUnsupportedColorFunctionError fe = true) →
      renderWithHtml2Canvas α (.error pe) (.error fe) = .error unresolvedColorFunctionsError) ∧
    (isUnsupportedColorFunctionError pe = false → isUnsupportedColorFunctionError fe = false →
      renderWithHtml2Canvas α (.error pe) (.error fe) = .error fe) := by
  unfold renderWithHtml2Canvas
  constructor
  · rintro (h | h) <;> simp [h]
  · intro h1 h2
    simp [h1, h2]

/-- Witness for the amended C5 at concrete errors. -/
theorem renderWithHtml2Canvas_error_surfacing_amended_witness :
    renderWithHtml2Canvas Unit (.error colorCexPrimaryError) (.error colorCexFallbackError) =
      .error unresolvedColorFunctionsError :=
  (renderWithHtml2Canvas_error_surfacing_amended Unit colorCexPrimaryError
    colorCexFallbackError).1 (Or.inl (by decide))

/-! Capture orchestrator (executeCapture).  The model follows the widget
implementation in src/unnamed/part_002, whose in-flight guard is a ref set
synchronously before the first suspension point and whose catch block
classifies abort errors; the ScreenshotterWidget.tsx variant is the same
control flow with the guard read from the isSaving state.  The callback is
modelled as a pure function from a configuration (props and panel state) and
an environment (the outcome of each theme iteration's render/sink work) to
the list of observable events it emits, in program order. -/

/-- The light/dark theme value. -/
inductive ThemeValue
  | light
  | dark
deriving DecidableEq

/-- oppositeTheme(theme). -/
def oppositeTheme : ThemeValue → ThemeValue
  | .light => .dark
  | .dark => .light

/-- The capture mode of a request. -/
inductive CaptureMode
  | element
  | viewport
  | fullpage
deriving DecidableEq

/-- The theme selection of a request. -/
inductive ThemeSelection
  | current
  | both
deriving DecidableEq

/-- The sink's acknowledgement, reduced to the field the status line uses. -/
structure SaveResult where
  relativePath : String
deriving DecidableEq

/-- isAbortError(error): a DOMException or Error named AbortError, or any
error whose lowercased friendly message contains "abort". -/
def isAbortError (e : JsError) : Bool :=
  e.name == "AbortError" || includesStr (stringToLower (toFriendlyError e)) "abort"

/-- Observable events of one executeCapture run, in program order. -/
inductive CaptureEvent
  | setTheme (t : ThemeValue)
  | rasterize
  | sinkCall
  | savedCallback
  | statusSaving
  | statusSuccess
  | statusError (message : String)
  | errorCallback (message : String)
deriving DecidableEq

/-- Outcome of one theme iteration's runSingleCapture: the render pipeline
throws before reaching the sink, the sink call itself throws, or the sink
acknowledges. -/
inductive IterationOutcome
  | renderFail (e : JsError)
  | sinkFail (e : JsError)
  | ok (r : SaveResult)

/-- Configuration of one executeCapture invocation: the panel state and
props it reads, plus the theme that getCurrentTheme() reports (from the
adapter when present, else from DOM/media-query inference). -/
structure OrchestratorConfig where
  mode : CaptureMode
  hasSelection : Bool
  themeSelection : ThemeSelection
  hasThemeAdapter : Bool
  currentTheme : ThemeValue

/-- The theme sequence built for the request: [original] for "current",
[original, opposite(original)] for "both". -/
def captureThemes (cfg : OrchestratorConfig) : List ThemeValue :=
  if cfg.themeSelection = ThemeSelection.both then
    [cfg.currentTheme, oppositeTheme cfg.currentTheme]
  else
    [cfg.currentTheme]

/-- The for-loop over the theme sequence: per iteration, setTheme via the
adapter when present, then runSingleCapture (rasterize, then sink call,
then the onSaved callback); the loop stops at the first thrown error, which
is returned alongside the emitted events. -/
def runThemeSequence (cfg : OrchestratorConfig) (outcome : Nat → IterationOutcome) :
    List ThemeValue → Nat → List CaptureEvent × Option JsError
  | [], _ => ([], none)
  | t :: rest, i =>
    let pre := if cfg.hasThemeAdapter then [CaptureEvent.setTheme t] else []
    match outcome i with
    | .renderFail e => (pre ++ [CaptureEvent.rasterize], some e)
    | .sinkFail e => (pre ++ [CaptureEvent.rasterize, CaptureEvent.sinkCall], some e)
    | .ok _ =>
      let tail := runThemeSequence cfg outcome rest (i + 1)
      (pre ++ [CaptureEvent.rasterize, CaptureEvent.sinkCall, CaptureEvent.savedCallback] ++
        tail.1, tail.2)

/-- The error, if any, with which the theme loop of a request stops. -/
def executeCaptureLoopError (cfg : OrchestratorConfig) (outcome : Nat → IterationOutcome) :
    Option JsError :=
  (runThemeSequence cfg outcome (captureThemes cfg) 0).2

/-- executeCapture for one invocation, given the in-flight flag it observes
at entry.  Guard: in-flight means return with no effect.  Preconditions:
element mode without a selection, or both-theme without an adapter, set an
error status and return.  Otherwise: saving status, the theme loop, then the
catch block (success status; or nothing for an abort-classified error; or
error status plus onError) and the finally block (restore the original
theme via the adapter when present). -/
def executeCapture (cfg : OrchestratorConfig) (outcome : Nat → IterationOutcome)
    (inFlight : Bool) : List CaptureEvent :=
  if inFlight then []
  else if cfg.mode = CaptureMode.element ∧ cfg.hasSelection = false then
    [CaptureEvent.statusError "Pick an element first."]
  else if cfg.themeSelection = ThemeSelection.both ∧ cfg.hasThemeAdapter = false then
    [CaptureEvent.statusError "Theme adapter required for both-theme capture."]
  else
    let originalTheme := cfg.currentTheme
    let loop := runThemeSequence cfg outcome (captureThemes cfg) 0
    CaptureEvent.statusSaving :: loop.1 ++
      (match loop.2 with
        | none => [CaptureEvent.statusSuccess]
        | some e =>
          if isAbortError e then []
          else [CaptureEvent.statusError (toFriendlyError e),
                CaptureEvent.errorCallback (toFriendlyError e)]) ++
      (if cfg.hasThemeAdapter then [CaptureEvent.setTheme originalTheme] else [])

/-- Two executeCapture invocations in immediate succession.  In the
single-threaded event loop the first invocation's guard check and flag set
run atomically before its first await, and the flag is cleared only in its
finally block; hence the second invocation, arriving any time before the
first completes, observes the in-flight flag set. -/
def executeCaptureTwice (cfg : OrchestratorConfig)
    (outcome : Nat → IterationOutcome) : List CaptureEvent :=
  executeCapture cfg outcome false ++ executeCapture cfg outcome true

/-- The setTheme calls of an event trace, in order. -/
def setThemeCalls (events : List CaptureEvent) : List ThemeValue :=
  events.filterMap fun e =>
    match e with
    | .setTheme t => some t
    | _ => none

theorem runThemeSequence_no_error_events (cfg : OrchestratorConfig)
    (outcome : Nat → IterationOutcome) :
    ∀ (themes : List ThemeValue) (i : Nat) (m : String),
      CaptureEvent.statusError m ∉ (runThemeSequence cfg outcome themes i).1 ∧
      CaptureEvent.errorCallback m ∉ (runThemeSequence cfg outcome themes i).1 := by
  intro themes
  induction themes with
  | nil => intro i m; simp [runThemeSequence]
  | cons t rest ih =>
    intro i m
    have ihm := ih (i + 1) m
    cases houtcome : outcome i <;>
      cases hadapter : cfg.hasThemeAdapter <;>
        simp [runThemeSequence, houtcome, hadapter] <;>
          simp_all

/-- C1.  Single-flight: a second executeCapture invocation arriving while
the first is still in flight (that is, observing the in-flight flag the
first set synchronously at entry) emits no events at all: it is not queued,
triggers no rasterization, no sink call, and no error.  In the single-theme
success scenario the pair of invocations therefore performs exactly one
rasterization attempt and exactly one sink call in total. -/
theorem executeCapture_single_flight (cfg : OrchestratorConfig)
    (outcome : Nat → IterationOutcome) (r : SaveResult)
    (hpre : cfg.mode = CaptureMode.element → cfg.hasSelection = true)
    (hcur : cfg.themeSelection = ThemeSelection.current)
    (hok : outcome 0 = IterationOutcome.ok r) :
    executeCapture cfg outcome true = [] ∧
    executeCaptureTwice cfg outcome = executeCapture cfg outcome false ∧
    (executeCaptureTwice cfg outcome).count CaptureEvent.rasterize = 1 ∧
    (executeCaptureTwice cfg outcome).count CaptureEvent.sinkCall = 1 ∧
    ∀ m, CaptureEvent.statusError m ∉ executeCaptureTwice cfg outcome := by
  have hsecond : executeCapture cfg outcome true = [] := by
    simp [executeCapture]
  have htwice : executeCaptureTwice cfg outcome = executeCapture cfg outcome false := by
    simp [executeCaptureTwice, hsecond]
  have hguard1 : ¬ (cfg.mode = CaptureMode.element ∧ cfg.hasSelection = false) := by
    rintro ⟨h1, h2⟩
    rw [hpre h1] at h2
    simp at h2
  have hguard2 : ¬ (cfg.themeSelection = ThemeSelection.both ∧ cfg.hasThemeAdapter = false) := by
    rintro ⟨h1, _⟩
    rw [hcur] at h1
    exact ThemeSelection.noConfusion h1
  have hthemes : captureThemes cfg = [cfg.currentTheme] := by
    simp [captureThemes, hcur]
  refine ⟨hsecond, htwice, ?_, ?_, ?_⟩ <;>
    rw [htwice] <;>
      cases hadapter : cfg.hasThemeAdapter <;>
        simp [executeCapture, hguard1, hguard2, hthemes, hcur, runThemeSequence, hok,
          hadapter, List.count_cons, List.count_nil, beq_iff_eq]

/-- Witness for C1 at a concrete configuration: viewport mode, current
theme only, no adapter, a successful capture outcome. -/
theorem executeCapture_single_flight_witness :
    (executeCaptureTwice
        ⟨CaptureMode.viewport, false, ThemeSelection.current, false, ThemeValue.light⟩
        (fun _ => IterationOutcome.ok ⟨"shots/a.png"⟩)).count CaptureEvent.rasterize = 1 ∧
    (executeCaptureTwice
        ⟨CaptureMode.viewport, false, ThemeSelection.current, false, ThemeValue.light⟩
        (fun _ => IterationOutcome.ok ⟨"shots/a.png"⟩)).count CaptureEvent.sinkCall = 1 := by
  have h := executeCapture_single_flight
    ⟨CaptureMode.viewport, false, ThemeSelection.current, false, ThemeValue.light⟩
    (fun _ => IterationOutcome.ok ⟨"shots/a.png"⟩) ⟨"shots/a.png"⟩
    (by intro h; exact CaptureMode.noConfusion h) rfl rfl
  exact ⟨h.2.2.1, h.2.2.2.1⟩

/-- C4.  Theme sequence and restoration: for a both-themes capture with an
adapter, starting from theme X, (a) when both iterations succeed, the full
setTheme call sequence is exactly [X, opposite X, X] — the two capture
iterations in order followed by the restoration — and (b) on every
completion path, whatever the iteration outcomes, the trace ends with a
final restoring setTheme X. -/
theorem executeCapture_theme_sequence_and_restoration (cfg : OrchestratorConfig)
    (outcome : Nat → IterationOutcome)
    (hadapter : cfg.hasThemeAdapter = true)
    (hboth : cfg.themeSelection = ThemeSelection.both)
    (hpre : cfg.mode = CaptureMode.element → cfg.hasSelection = true) :
    ((∃ r0, outcome 0 = IterationOutcome.ok r0) →
      (∃ r1, outcome 1 = IterationOutcome.ok r1) →
      setThemeCalls (executeCapture cfg outcome false) =
        [cfg.currentTheme, oppositeTheme cfg.currentTheme, cfg.currentTheme]) ∧
    (∃ l, setThemeCalls (executeCapture cfg outcome false) =
      l ++ [cfg.currentTheme]) := by
  have hguard1 : ¬ (cfg.mode = CaptureMode.element ∧ cfg.hasSelection = false) := by
    rintro ⟨h1, h2⟩
    rw [hpre h1] at h2
    simp at h2
  have hguard2 : ¬ (cfg.themeSelection = ThemeSelection.both ∧ cfg.hasThemeAdapter = false) := by
    rintro ⟨_, h2⟩
    rw [hadapter] at h2
    simp at h2
  have hthemes : captureThemes cfg =
      [cfg.currentTheme, oppositeTheme cfg.currentTheme] := by
    simp [captureThemes, hboth]
  constructor
  · rintro ⟨r0, h0⟩ ⟨r1, h1⟩
    simp [executeCapture, hguard1, hguard2, hthemes, runThemeSequence, h0, h1,
      hadapter, setThemeCalls]
  · simp only [executeCapture, if_neg, hguard1, hguard2, hthemes, hadapter]
    refine ⟨setThemeCalls ((runThemeSequence cfg outcome
      [cfg.currentTheme, oppositeTheme cfg.currentTheme] 0).1 ++
      (match (runThemeSequence cfg outcome
          [cfg.currentTheme, oppositeTheme cfg.currentTheme] 0).2 with
        | none => [CaptureEvent.statusSuccess]
        | some e =>
          if isAbortError e then []
          else [CaptureEvent.statusError (toFriendlyError e),
                CaptureEvent.errorCallback (toFriendlyError e)])), ?_⟩
    simp [setThemeCalls]

/-- Witness for C4 at a concrete configuration: both themes from light with
an adapter, both iterations succeeding. -/
theorem executeCapture_theme_sequence_and_restoration_witness :
    setThemeCalls (executeCapture
        ⟨CaptureMode.viewport, false, ThemeSelection.both, true, ThemeValue.light⟩
        (fun _ => IterationOutcome.ok ⟨"shots/b.png"⟩) false) =
      [ThemeValue.light, ThemeValue.dark, ThemeValue.light] := by
  have h := (executeCapture_theme_sequence_and_restoration
    ⟨CaptureMode.viewport, false, ThemeSelection.both, true, ThemeValue.light⟩
    (fun _ => IterationOutcome.ok ⟨"shots/b.png"⟩) rfl rfl
    (by intro h; exact CaptureMode.noConfusion h)).1
    ⟨⟨"shots/b.png"⟩, rfl⟩ ⟨⟨"shots/b.png"⟩, rfl⟩
  exact h

/-- C10.  Cancellation is never a user-facing error: when the theme loop of
a well-formed request stops with an abort-classified error, the trace of
executeCapture contains no error status event and no onError callback
event. -/
theorem executeCapture_abort_not_user_error (cfg : OrchestratorConfig)
    (outcome : Nat → IterationOutcome) (e : JsError)
    (hpre : cfg.mode = CaptureMode.element → cfg.hasSelection = true)
    (hboth : cfg.themeSelection = ThemeSelection.both → cfg.hasThemeAdapter = true)
    (herr : executeCaptureLoopError cfg outcome = some e)
    (habort : isAbortError e = true) :
    (∀ m, CaptureEvent.statusError m ∉ executeCapture cfg outcome false) ∧
    (∀ m, CaptureEvent.errorCallback m ∉ executeCapture cfg outcome false) := by
  have hguard1 : ¬ (cfg.mode = CaptureMode.element ∧ cfg.hasSelection = false) := by
    rintro ⟨h1, h2⟩
    rw [hpre h1] at h2
    simp at h2
  have hguard2 : ¬ (cfg.themeSelection = ThemeSelection.both ∧ cfg.hasThemeAdapter = false) := by
    rintro ⟨h1, h2⟩
    rw [hboth h1] at h2
    simp at h2
  have hmid : (match (runThemeSequence cfg outcome (captureThemes cfg) 0).2 with
      | none => [CaptureEvent.statusSuccess]
      | some e =>
        if isAbortError e then []
        else [CaptureEvent.statusError (toFriendlyError e),
              CaptureEvent.errorCallback (toFriendlyError e)]) = ([] : List CaptureEvent) := by
    have : (runThemeSequence cfg outcome (captureThemes cfg) 0).2 = some e := herr
    rw [this]
    simp [habort]
  have hloop := runThemeSequence_no_error_events cfg outcome (captureThemes cfg) 0
  have htrace : executeCapture cfg outcome false =
      CaptureEvent.statusSaving :: (runThemeSequence cfg outcome (captureThemes cfg) 0).1 ++
        ([] : List CaptureEvent) ++
        (if cfg.hasThemeAdapter then [CaptureEvent.setTheme cfg.currentTheme] else []) := by
    simp only [executeCapture, Bool.false_eq_true, if_false, if_neg hguard1, if_neg hguard2,
      hmid]
  constructor
  · intro m
    rw [htrace]
    intro hmem
    rcases List.mem_cons.mp hmem with heq | hmem2
    · exact CaptureEvent.noConfusion heq
    · rcases List.mem_append.mp hmem2 with h3 | h4
      · rcases List.mem_append.mp h3 with h5 | h6
        · exact (hloop m).1 h5
        · exact List.not_mem_nil _ h6
      · revert h4
        cases cfg.hasThemeAdapter <;> simp
  · intro m
    rw [htrace]
    intro hmem
    rcases List.mem_cons.mp hmem with heq | hmem2
    · exact CaptureEvent.noConfusion heq
    · rcases List.mem_append.mp hmem2 with h3 | h4
      · rcases List.mem_append.mp h3 with h5 | h6
        · exact (hloop m).2 h5
        · exact List.not_mem_nil _ h6
      · revert h4
        cases cfg.hasThemeAdapter <;> simp

/-- Witness for C10 at a concrete configuration: a viewport capture whose
sink call is aborted by teardown. -/
theorem executeCapture_abort_not_user_error_witness :
    CaptureEvent.errorCallback "The user aborted a request." ∉
      executeCapture
        ⟨CaptureMode.viewport, false, ThemeSelection.current, false, ThemeValue.light⟩
        (fun _ => IterationOutcome.sinkFail ⟨"AbortError", "The user aborted a request."⟩)
        false := by
  have h := executeCapture_abort_not_user_error
    ⟨CaptureMode.viewport, false, ThemeSelection.current, false, ThemeValue.light⟩
    (fun _ => IterationOutcome.sinkFail ⟨"AbortError", "The user aborted a request."⟩)
    ⟨"AbortError", "The user aborted a request."⟩
    (by intro h; exact CaptureMode.noConfusion h)
    (by intro h; exact ThemeSelection.noConfusion h)
    (by simp [executeCaptureLoopError, captureThemes, runThemeSequence])
    (by decide)
  exact h.2 "The user aborted a request."

/-! Element target resolver (resolveElementCaptureTarget).  The traversal
walks the parent chain of the raw target; the chain is modelled as the list
of elements from the raw target upwards, excluding body and the document
element (where the loop stops), each reduced to the computed-style readouts
the resolver inspects.  The result is the index of the returned element in
that chain; index 0 is the raw target itself.  isWidgetElement uses closest,
so an element is widget-owned when it or any ancestor carries the marker;
chromeAbove records whether body or anything above it carries it. -/

/-- Computed-style readouts of one candidate element, at the granularity the
resolver inspects them: the marker attribute, the bounding rectangle, the
transparency of the computed background color (isTransparentColor), the four
border widths and corner radii in px (numberFromPx), the computed box-shadow
and display strings, and the child count. -/
structure ElemInfo where
  marked : Bool
  rectWidth : ℚ
  rectHeight : ℚ
  backgroundTransparent : Bool
  borderTopWidth : ℚ
  borderRightWidth : ℚ
  borderBottomWidth : ℚ
  borderLeftWidth : ℚ
  boxShadow : String
  radiusTopLeft : ℚ
  radiusTopRight : ℚ
  radiusBottomLeft : ℚ
  radiusBottomRight : ℚ
  display : String
  childCount : Nat
deriving DecidableEq

/-- JavaScript s.startsWith(pre). -/
def startsWithStr (s pre : String) : Bool := leadsList pre.toList s.toList

/-- Whether element index i is widget-owned (isWidgetElement via closest):
it or some ancestor in the chain carries the marker, or body/above does. -/
def widgetAt (chromeAbove : Bool) (chain : List ElemInfo) (i : Nat) : Bool :=
  chromeAbove || (chain.drop i).any (fun e => e.marked)

/-- Candidate too small: rect.width < 8 or rect.height < 8. -/
def elemSmall (e : ElemInfo) : Bool := decide (e.rectWidth < 8 ∨ e.rectHeight < 8)

/-- Bounding-box area of a candidate. -/
def elemArea (e : ElemInfo) : ℚ := e.rectWidth * e.rectHeight

/-- hasBackground: the computed background color is not transparent. -/
def elemHasBackground (e : ElemInfo) : Bool := !e.backgroundTransparent

/-- hasBorder: the four border widths sum to a positive value. -/
def elemHasBorder (e : ElemInfo) : Bool :=
  decide (0 < e.borderTopWidth + e.borderRightWidth + e.borderBottomWidth + e.borderLeftWidth)

/-- hasShadow: Boolean(boxShadow and boxShadow not equal to "none"). -/
def elemHasShadow (e : ElemInfo) : Bool := !(e.boxShadow == "") && !(e.boxShadow == "none")

/-- hasRadius: some corner radius is positive. -/
def elemHasRadius (e : ElemInfo) : Bool :=
  decide (0 < e.radiusTopLeft ∨ 0 < e.radiusTopRight ∨
    0 < e.radiusBottomLeft ∨ 0 < e.radiusBottomRight)

/-- isInline: display starts with "inline". -/
def elemIsInline (e : ElemInfo) : Bool := startsWithStr e.display "inline"

/-- isLayoutContainer: flex or grid display, more than one child, and no
background, border or shadow. -/
def elemIsLayoutContainer (e : ElemInfo) : Bool :=
  (includesStr e.display "flex" || includesStr e.display "grid") &&
    decide (1 < e.childCount) &&
    !elemHasBackground e && !elemHasBorder e && !elemHasShadow e

/-- hasVisualSurface: background, border, shadow or radius. -/
def elemHasVisualSurface (e : ElemInfo) : Bool :=
  elemHasBackground e || elemHasBorder e || elemHasShadow e || elemHasRadius e

/-- Selection rule 1: visual surface and areaRatio at most 0.18. -/
def selectionRuleOne (e : ElemInfo) (ratio : ℚ) : Bool :=
  elemHasVisualSurface e && decide (ratio ≤ 18 / 100)

/-- Selection rule 2: not a layout container, not inline, depth at most 2,
areaRatio at most 0.08. -/
def selectionRuleTwo (e : ElemInfo) (depth : Nat) (ratio : ℚ) : Bool :=
  !elemIsLayoutContainer e && !elemIsInline e &&
    decide (depth ≤ 2) && decide (ratio ≤ 8 / 100)

/-- Strict comparison against the running fallback area; none means the
initial Number.POSITIVE_INFINITY. -/
def areaLtB (a : ℚ) : Option ℚ → Bool
  | none => true
  | some b => decide (a < b)

/-- The resolver loop.  w gives the widget-ownership of each index; depth is
both the traversal depth and the index of the head of the remaining list;
fb and fbArea are the running fallback and its area.  Mirrors the for-loop
of resolveElementCaptureTarget: stop past depth 8; skip widget-owned, tiny,
and at-least-55%-of-viewport candidates; track the smallest non-inline
candidate as fallback; return the first candidate matching a selection
rule; else return the fallback. -/
def resolveGo (vpArea : ℚ) (w : Nat → Bool) :
    List ElemInfo → Nat → Nat → Option ℚ → Nat
  | [], _, fb, _ => fb
  | e :: rest, depth, fb, fbArea =>
    if depth > 8 then fb
    else if w depth then resolveGo vpArea w rest (depth + 1) fb fbArea
    else if elemSmall e then resolveGo vpArea w rest (depth + 1) fb fbArea
    else if decide (elemArea e / vpArea ≥ 55 / 100) then
      resolveGo vpArea w rest (depth + 1) fb fbArea
    else
      let fb2 := if !elemIsInline e && areaLtB (elemArea e) fbArea then depth else fb
      let fbArea2 :=
        if !elemIsInline e && areaLtB (elemArea e) fbArea then some (elemArea e) else fbArea
      if selectionRuleOne e (elemArea e / vpArea) then depth
      else if selectionRuleTwo e depth (elemArea e / vpArea) then depth
      else resolveGo vpArea w rest (depth + 1) fb2 fbArea2

/-- resolveElementCaptureTarget(rawTarget): viewport area floored at 1, the
loop started at the raw target (index 0) with the raw target as the initial
fallback and an infinite initial fallback area. -/
def resolveElementCaptureTarget (vpWidth vpHeight : ℚ) (chromeAbove : Bool)
    (chain : List ElemInfo) : Nat :=
  resolveGo (max 1 (vpWidth * vpHeight)) (widgetAt chromeAbove chain) chain 0 0 none

/-- A raw target that is itself part of the widget chrome (carries the
marker), whose parent is body: the chain consists of it alone. -/
def chromeElem : ElemInfo :=
  ⟨true, 100, 100, false, 0, 0, 0, 0, "none", 0, 0, 0, 0, "block", 0⟩

/-- C3 counterexample.  For a raw target nested in (indeed carrying) the
engine's UI marker whose parent is body, the traversal skips it as a
candidate, no other candidate exists, and the initial fallback — the raw
target itself — is returned: the resolver returns a node marked as engine
UI chrome. -/
theorem resolveElementCaptureTarget_chrome_counterexample :
    resolveElementCaptureTarget 1000 800 false [chromeElem] = 0 ∧
    widgetAt false [chromeElem]
      (resolveElementCaptureTarget 1000 800 false [chromeElem]) = true := by
  constructor <;> rfl

theorem resolveGo_widget_invariant (vpArea : ℚ) (w : Nat → Bool) :
    ∀ (lst : List ElemInfo) (depth fb : Nat) (fbArea : Option ℚ),
      (w fb = true → fb = 0) →
      w (resolveGo vpArea w lst depth fb fbArea) = true →
      resolveGo vpArea w lst depth fb fbArea = 0 := by
  intro lst
  induction lst with
  | nil => intro depth fb fbArea hfb; exact hfb
  | cons e rest ih =>
    intro depth fb fbArea hfb
    simp only [resolveGo]
    split_ifs with h1 h2 h3 h4 h5 h6 h7
    · exact hfb
    · exact ih (depth + 1) fb fbArea hfb
    · exact ih (depth + 1) fb fbArea hfb
    · exact ih (depth + 1) fb fbArea hfb
    · intro hw; exact absurd hw h2
    · intro hw; exact absurd hw h2
    · exact ih (depth + 1) depth (some (elemArea e)) (fun hw => absurd hw h2)
    · exact ih (depth + 1) fb fbArea hfb

/-- C3 amended.  The resolver never selects a widget-chrome node as a
candidate: every candidate that is widget-owned (closest finds the marker)
is skipped, both for the selection rules and for fallback tracking.  A
chrome-marked return value is therefore possible only as the last-resort
fallback, namely the unmodified raw target itself (index 0); the callers
separately discard chrome results before using them. -/
theorem resolveElementCaptureTarget_never_selects_chrome
    (vpWidth vpHeight : ℚ) (chromeAbove : Bool) (chain : List ElemInfo)
    (h : widgetAt chromeAbove chain
      (resolveElementCaptureTarget vpWidth vpHeight chromeAbove chain) = true) :
    resolveElementCaptureTarget vpWidth vpHeight chromeAbove chain = 0 :=
  resolveGo_widget_invariant _ _ chain 0 0 none (fun _ => rfl) h

/-- Witness for the amended C3 at the concrete chrome-only chain. -/
theorem resolveElementCaptureTarget_never_selects_chrome_witness :
    resolveElementCaptureTarget 1000 800 false [chromeElem] = 0 :=
  resolveElementCaptureTarget_never_selects_chrome 1000 800 false [chromeElem] rfl

/-- Modelled from the spec, section 4.1: identical to the resolver loop
except that the smallest non-inline candidate is tracked as the fallback
BEFORE the at-least-55%-of-viewport rejection, so that rejected page-level
wrappers are still tracked as fallback, as the spec words describe. -/
def resolveGoSpecTracking (vpArea : ℚ) (w : Nat → Bool) :
    List ElemInfo → Nat → Nat → Option ℚ → Nat
  | [], _, fb, _ => fb
  | e :: rest, depth, fb, fbArea =>
    if depth > 8 then fb
    else if w depth then resolveGoSpecTracking vpArea w rest (depth + 1) fb fbArea
    else if elemSmall e then resolveGoSpecTracking vpArea w rest (depth + 1) fb fbArea
    else
      let fb2 := if !elemIsInline e && areaLtB (elemArea e) fbArea then depth else fb
      let fbArea2 :=
        if !elemIsInline e && areaLtB (elemArea e) fbArea then some (elemArea e) else fbArea
      if decide (elemArea e / vpArea ≥ 55 / 100) then
        resolveGoSpecTracking vpArea w rest (depth + 1) fb2 fbArea2
      else if selectionRuleOne e (elemArea e / vpArea) then depth
      else if selectionRuleTwo e depth (elemArea e / vpArea) then depth
      else resolveGoSpecTracking vpArea w rest (depth + 1) fb2 fbArea2

/-- Modelled from the spec, section 4.1: the resolver with the spec's
fallback tracking (track-then-reject for the 55% rule). -/
def resolveElementCaptureTargetSpecTracking (vpWidth vpHeight : ℚ) (chromeAbove : Bool)
    (chain : List ElemInfo) : Nat :=
  resolveGoSpecTracking (max 1 (vpWidth * vpHeight)) (widgetAt chromeAbove chain) chain 0 0 none

/-- A tiny raw target (4 by 4), skipped by the 8 by 8 size rule. -/
def tinyElem : ElemInfo :=
  ⟨false, 4, 4, true, 0, 0, 0, 0, "none", 0, 0, 0, 0, "block", 0⟩

/-- A non-inline parent occupying more than 55% of the viewport, with no
visual surface. -/
def hugeElem : ElemInfo :=
  ⟨false, 120, 120, true, 0, 0, 0, 0, "none", 0, 0, 0, 0, "block", 2⟩

/-- C9 counterexample.  On a 100 by 100 viewport with chain [tiny, huge]:
the huge candidate is non-inline and is rejected for occupying at least 55%
of the viewport.  Under the claim (and the spec's words) it is still
tracked as the smallest non-inline fallback, so the resolver should return
it (index 1); the code instead skips it before the fallback update and
returns the raw target (index 0). -/
theorem resolveElementCaptureTarget_fallback_counterexample :
    resolveElementCaptureTarget 100 100 false [tinyElem, hugeElem] = 0 ∧
    resolveElementCaptureTargetSpecTracking 100 100 false [tinyElem, hugeElem] = 1 ∧
    elemIsInline hugeElem = false ∧
    decide (elemArea hugeElem / max 1 ((100 : ℚ) * 100) ≥ 55 / 100) = true := by
  have hvp : max (1 : ℚ) (100 * 100) = 10000 := by norm_num
  have harea : elemArea hugeElem = 14400 := by norm_num [elemArea, hugeElem]
  have hsmallT : elemSmall tinyElem = true := by decide
  have hsmallH : elemSmall hugeElem = false := by decide
  have hw0 : widgetAt false [tinyElem, hugeElem] 0 = false := by decide
  have hw1 : widgetAt false [tinyElem, hugeElem] 1 = false := by decide
  have hratio : decide ((14400 : ℚ) / 10000 ≥ 55 / 100) = true := by norm_num
  have hinline : elemIsInline hugeElem = false := by decide
  refine ⟨?_, ?_, hinline, ?_⟩
  · norm_num [resolveElementCaptureTarget, hvp, resolveGo, hw0, hw1, hsmallT, hsmallH,
      harea, hratio]
  · norm_num [resolveElementCaptureTargetSpecTracking, hvp, resolveGoSpecTracking,
      hw0, hw1, hsmallT, hsmallH, harea, hratio, hinline, areaLtB]
  · rw [hvp, harea, hratio]

/-- The indices, in traversal order, of candidates that pass every filter
(within depth 8, not widget-owned, at least 8 by 8, under 55% of the
viewport) and match one of the two selection rules. -/
def selectionList (vpArea : ℚ) (w : Nat → Bool) :
    List ElemInfo → Nat → List Nat
  | [], _ => []
  | e :: rest, depth =>
    if depth > 8 then []
    else if w depth then selectionList vpArea w rest (depth + 1)
    else if elemSmall e then selectionList vpArea w rest (depth + 1)
    else if decide (elemArea e / vpArea ≥ 55 / 100) then
      selectionList vpArea w rest (depth + 1)
    else if selectionRuleOne e (elemArea e / vpArea) then
      depth :: selectionList vpArea w rest (depth + 1)
    else if selectionRuleTwo e depth (elemArea e / vpArea) then
      depth :: selectionList vpArea w rest (depth + 1)
    else selectionList vpArea w rest (depth + 1)

/-- The indices and areas, in traversal order, of the non-inline candidates
that pass every filter (within depth 8, not widget-owned, at least 8 by 8,
under 55% of the viewport): the candidates eligible for fallback tracking. -/
def qualifiedList (vpArea : ℚ) (w : Nat → Bool) :
    List ElemInfo → Nat → List (Nat × ℚ)
  | [], _ => []
  | e :: rest, depth =>
    if depth > 8 then []
    else if w depth then qualifiedList vpArea w rest (depth + 1)
    else if elemSmall e then qualifiedList vpArea w rest (depth + 1)
    else if decide (elemArea e / vpArea ≥ 55 / 100) then
      qualifiedList vpArea w rest (depth + 1)
    else if !elemIsInline e then
      (depth, elemArea e) :: qualifiedList vpArea w rest (depth + 1)
    else qualifiedList vpArea w rest (depth + 1)

/-- The index of the first strict-minimum area among the listed candidates,
seeded with a default index and area (none meaning infinity). -/
def argminArea : List (Nat × ℚ) → Nat → Option ℚ → Nat
  | [], best, _ => best
  | p :: rest, best, bestArea =>
    if areaLtB p.2 bestArea then argminArea rest p.1 (some p.2)
    else argminArea rest best bestArea

theorem resolveGo_characterization (vpArea : ℚ) (w : Nat → Bool) :
    ∀ (lst : List ElemInfo) (depth fb : Nat) (fbArea : Option ℚ),
      resolveGo vpArea w lst depth fb fbArea =
        match (selectionList vpArea w lst depth).head? with
        | some s => s
        | none => argminArea (qualifiedList vpArea w lst depth) fb fbArea := by
  intro lst
  induction lst with
  | nil => intro depth fb fbArea; rfl
  | cons e rest ih =>
    intro depth fb fbArea
    simp only [resolveGo, selectionList, qualifiedList]
    by_cases h1 : depth > 8
    · simp only [if_pos h1]; rfl
    simp only [if_neg h1]
    by_cases h2 : w depth = true
    · simp only [if_pos h2]; exact ih (depth + 1) fb fbArea
    simp only [if_neg h2]
    by_cases h3 : elemSmall e = true
    · simp only [if_pos h3]; exact ih (depth + 1) fb fbArea
    simp only [if_neg h3]
    by_cases h4 : decide (elemArea e / vpArea ≥ 55 / 100) = true
    · simp only [if_pos h4]; exact ih (depth + 1) fb fbArea
    simp only [if_neg h4]
    by_cases h5 : selectionRuleOne e (elemArea e / vpArea) = true
    · simp only [if_pos h5]; rfl
    simp only [if_neg h5]
    by_cases h6 : selectionRuleTwo e depth (elemArea e / vpArea) = true
    · simp only [if_pos h6]; rfl
    simp only [if_neg h6]
    rw [ih (depth + 1)]
    cases hsel : (selectionList vpArea w rest (depth + 1)).head? with
    | some s => rfl
    | none =>
      by_cases hinl : (!elemIsInline e) = true
      · rw [if_pos hinl, hinl, Bool.true_and]
        cases hlt : areaLtB (elemArea e) fbArea
        · simp [argminArea, hlt]
        · simp [argminArea, hlt]
      · have hinl2 : (!elemIsInline e) = false := by
          revert hinl; cases (!elemIsInline e) <;> simp
        rw [if_neg hinl, hinl2, Bool.false_and]
        simp only [Bool.false_eq_true, if_false]

/-- C9 amended.  The resolver is total and equals the following
characterization: the first candidate, in traversal order, that passes the
filters (within depth 8, not widget-owned, at least 8 by 8, and under 55%
of the viewport — candidates at or above 55% are NOT tracked, contrary to
the claim) and matches a selection rule; otherwise the smallest non-inline
candidate among the filtered ones; otherwise the original raw target
(index 0). -/
theorem resolveElementCaptureTarget_fallback_amended
    (vpWidth vpHeight : ℚ) (chromeAbove : Bool) (chain : List ElemInfo) :
    resolveElementCaptureTarget vpWidth vpHeight chromeAbove chain =
      match (selectionList (max 1 (vpWidth * vpHeight)) (widgetAt chromeAbove chain)
          chain 0).head? with
      | some s => s
      | none => argminArea (qualifiedList (max 1 (vpWidth * vpHeight))
          (widgetAt chromeAbove chain) chain 0) 0 none :=
  resolveGo_characterization _ _ chain 0 0 none

/-! Color normalizer (oklch/oklab rewriting).  Strings are processed as
character lists.  JavaScript numbers are rationals; the three transcendental
library calls the pipeline makes (Math.pow(x, 1/2.4) in the gamma encoder,
and the cosine/sine and radian conversion of the oklch hue) are abstracted
as an explicit numeric environment, since they have no exact rational form;
every claim proved below either does not depend on their values or assumes
only pow(1, 1/2.4) = 1, which holds for IEEE Math.pow. -/

/-- The transcendental operations used by the numeric color fallback:
powInv24 x models Math.pow(x, 1/2.4); cosDeg and sinDeg model
Math.cos / Math.sin of an angle given in degrees (the source converts to
radians first); radToDeg models multiplication by 180/pi. -/
structure NumericEnv where
  powInv24 : ℚ → ℚ
  cosDeg : ℚ → ℚ
  sinDeg : ℚ → ℚ
  radToDeg : ℚ → ℚ

/-- JavaScript whitespace as used by trim and the \s class, restricted to
the characters that can occur in CSS color tokens. -/
def isJsSpace (c : Char) : Bool :=
  c == ' ' || c == '\t' || c == '\n' || c == '\r' ||
    c == '\x0b' || c == '\x0c' || c == ' '

/-- JavaScript String.prototype.trim on a character list. -/
def trimList (s : List Char) : List Char :=
  ((s.dropWhile isJsSpace).reverse.dropWhile isJsSpace).reverse

/-- Leading sign dropped (the [+-]? part of the number pattern). -/
def dropSign : List Char → List Char
  | '+' :: r => r
  | '-' :: r => r
  | s => s

/-- Whether the leading character is a minus sign. -/
def isNegSign : List Char → Bool
  | '-' :: _ => true
  | _ => false

/-- The sign factor of a signed numeral. -/
def signVal (s : List Char) : ℚ := if isNegSign s then -1 else 1

/-- Split into the leading run of ASCII digits and the remainder. -/
def splitDigits (s : List Char) : List Char × List Char :=
  (s.takeWhile Char.isDigit, s.dropWhile Char.isDigit)

/-- Numeric value of a digit run. -/
def digitsToNat (ds : List Char) : Nat :=
  ds.foldl (fun acc c => 10 * acc + (c.toNat - 48)) 0

/-- Shape of the exponent part (?:e[+-]?\d+)? anchored at the end. -/
def expShape : List Char → Bool
  | [] => true
  | c :: r =>
    (c == 'e' || c == 'E') &&
      (let r2 := dropSign r
       let p := splitDigits r2
       !p.1.isEmpty && p.2.isEmpty)

/-- Recognizer for CSS_NUMBER_PATTERN:
caret [+-]? (?: digits dot? digits* | dot digits+ ) (?: e sign? digits+ )? dollar,
case-insensitive. -/
def cssNumberShape (s : List Char) : Bool :=
  let s1 := dropSign s
  let p := splitDigits s1
  if p.1.isEmpty then
    match p.2 with
    | '.' :: r2 =>
      let q := splitDigits r2
      !q.1.isEmpty && expShape q.2
    | _ => false
  else
    match p.2 with
    | '.' :: r2 =>
      let q := splitDigits r2
      expShape q.2
    | _ => expShape p.2

/-- Value of the exponent part (1 when absent). -/
def expVal : List Char → ℚ
  | [] => 1
  | _ :: r =>
    let r2 := dropSign r
    let p := splitDigits r2
    (10 : ℚ) ^ (if isNegSign r then -(digitsToNat p.1 : ℤ) else (digitsToNat p.1 : ℤ))

/-- Fractional value of a digit run read after the decimal point. -/
def fracVal (fs : List Char) : ℚ := (digitsToNat fs : ℚ) / (10 : ℚ) ^ fs.length

/-- JavaScript Number() on a string matching the number pattern. -/
def cssNumberVal (s : List Char) : ℚ :=
  let sign := signVal s
  let s1 := dropSign s
  let p := splitDigits s1
  match p.2 with
  | '.' :: r2 =>
    let q := splitDigits r2
    sign * ((digitsToNat p.1 : ℚ) + fracVal q.1) * expVal q.2
  | _ => sign * (digitsToNat p.1 : ℚ) * expVal p.2

/-- parseCssNumber(raw): trim, test against CSS_NUMBER_PATTERN, then
Number().  (The Number.isFinite re-check cannot fail in the rational
model and is omitted.) -/
def parseCssNumber (raw : List Char) : Option ℚ :=
  let token := trimList raw
  if cssNumberShape token then some (cssNumberVal token) else none

/-- Trimmed, lowercased character list of a raw channel string, as the
channel parsers prepare it. -/
def channelToken (raw : List Char) : List Char := lowerList (trimList raw)

/-- parseAlpha(raw): null and empty mean 1; a percentage is divided by 100;
the result is clamped to [0, 1]. -/
def parseAlpha (raw : Option (List Char)) : Option ℚ :=
  match raw with
  | none => some 1
  | some r =>
    let token := channelToken r
    if token.isEmpty then some 1
    else if token.getLast? == some '%' then
      match parseCssNumber token.dropLast with
      | none => none
      | some v => some (clampQ (v / 100) 0 1)
    else
      match parseCssNumber token with
      | none => none
      | some v => some (clampQ v 0 1)

/-- parseLightness(raw): a percentage is scaled to [0,1]; clamped to [0,1]. -/
def parseLightness (raw : List Char) : Option ℚ :=
  let token := channelToken raw
  if token.isEmpty then none
  else if token.getLast? == some '%' then
    match parseCssNumber token.dropLast with
    | none => none
    | some v => some (clampQ (v / 100) 0 1)
  else
    match parseCssNumber token with
    | none => none
    | some v => some (clampQ v 0 1)

/-- parseChroma(raw): a percentage is scaled by 0.4; floored at 0. -/
def parseChroma (raw : List Char) : Option ℚ :=
  let token := channelToken raw
  if token.isEmpty then none
  else if token.getLast? == some '%' then
    match parseCssNumber token.dropLast with
    | none => none
    | some v => some (max 0 (v / 100 * (4 / 10)))
  else
    match parseCssNumber token with
    | none => none
    | some v => some (max 0 v)

/-- parseOklabAxis(raw): a percentage is scaled by 0.4, signed. -/
def parseOklabAxis (raw : List Char) : Option ℚ :=
  let token := channelToken raw
  if token.isEmpty then none
  else if token.getLast? == some '%' then
    match parseCssNumber token.dropLast with
    | none => none
    | some v => some (v / 100 * (4 / 10))
  else parseCssNumber token

/-- One unit suffix of parseHueDegrees: the numeral before the suffix times
the conversion factor. -/
def parseUnitValue (token : List Char) (suffix : List Char) (conv : ℚ → ℚ) : Option ℚ :=
  if (leadsList suffix.reverse token.reverse) then
    match parseCssNumber (token.take (token.length - suffix.length)) with
    | none => none
    | some v => some (conv v)
  else none

/-- parseHueDegrees(raw): empty and none give 0; deg/grad/rad/turn unit
suffixes convert to degrees (rad via the environment's 180/pi factor);
otherwise a bare number. -/
def parseHueDegrees (env : NumericEnv) (raw : List Char) : Option ℚ :=
  let token := channelToken raw
  if token.isEmpty || token == "none".toList then some 0
  else
    ((parseUnitValue token "deg".toList (fun v => v * 1)).orElse fun _ =>
      (parseUnitValue token "grad".toList (fun v => v * (9 / 10))).orElse fun _ =>
        (parseUnitValue token "rad".toList env.radToDeg).orElse fun _ =>
          parseUnitValue token "turn".toList (fun v => v * 360)).orElse fun _ =>
      parseCssNumber token

/-- The scanning loop of splitFunctionBodyAndAlpha: walk the body tracking
parenthesis depth; at a top-level slash, split into the part seen so far
(accumulated reversed) and the remainder, both trimmed. -/
def splitBodyAux : List Char → Nat → List Char → List Char × Option (List Char)
  | [], _, acc => (trimList acc.reverse, none)
  | c :: rest, depth, acc =>
    if c = '(' then splitBodyAux rest (depth + 1) (c :: acc)
    else if c = ')' then splitBodyAux rest (depth - 1) (c :: acc)
    else if c = '/' ∧ depth = 0 then (trimList acc.reverse, some (trimList rest))
    else splitBodyAux rest depth (c :: acc)

/-- splitFunctionBodyAndAlpha(body): the channels part and the optional
alpha part after a top-level slash.  (Math.max(0, depth - 1) is Nat
subtraction.) -/
def splitFunctionBodyAndAlpha (body : List Char) : List Char × Option (List Char) :=
  splitBodyAux body 0 []

/-- channelsPart.split(on whitespace runs).filter(Boolean): the maximal
non-space runs. -/
def splitWsAux : List Char → List Char → List (List Char)
  | [], acc => if acc.isEmpty then [] else [acc.reverse]
  | c :: rest, acc =>
    if isJsSpace c then
      if acc.isEmpty then splitWsAux rest [] else acc.reverse :: splitWsAux rest []
    else splitWsAux rest (c :: acc)

/-- The whitespace-separated channel tokens of the channels part. -/
def splitWs (s : List Char) : List (List Char) := splitWsAux s []

/-- A parsed okl color token in the lightness/a/b form. -/
structure OklParsed where
  lightness : ℚ
  a : ℚ
  b : ℚ
  alpha : ℚ
deriving DecidableEq

/-- JavaScript line terminators, which the dot of the anchored token regex
does not match. -/
def isLineTerminator (c : Char) : Bool :=
  c == '\n' || c == '\r' || c == ' ' || c == ' '

/-- parseOklToken(token): match the trimmed token against the anchored
pattern okl(ch|ab) openParen (.*) closeParen, case-insensitively (the dot
excludes line terminators); reject an empty inner part; split off the
alpha; parse the three channel tokens; for the ch form, convert chroma and
hue to the a/b axes via the environment's degree cosine and sine. -/
def parseOklToken (env : NumericEnv) (token : List Char) : Option OklParsed :=
  let t := trimList token
  match t with
  | c1 :: c2 :: c3 :: c4 :: c5 :: c6 :: rest =>
    if lowerChar c1 = 'o' ∧ lowerChar c2 = 'k' ∧ lowerChar c3 = 'l' ∧ c6 = '(' ∧
        ((lowerChar c4 = 'a' ∧ lowerChar c5 = 'b') ∨ (lowerChar c4 = 'c' ∧ lowerChar c5 = 'h')) ∧
        rest.getLast? = some ')' ∧ rest.dropLast.all (fun c => !isLineTerminator c) then
      let inner := rest.dropLast
      if (trimList inner).isEmpty then none
      else
        let split := splitFunctionBodyAndAlpha inner
        match parseAlpha split.2 with
        | none => none
        | some alpha =>
          match splitWs split.1 with
          | [t1, t2, t3] =>
            match parseLightness t1 with
            | none => none
            | some lightness =>
              if lowerChar c4 = 'a' then
                match parseOklabAxis t2, parseOklabAxis t3 with
                | some axisA, some axisB => some ⟨lightness, axisA, axisB, alpha⟩
                | _, _ => none
              else
                match parseChroma t2, parseHueDegrees env t3 with
                | some chroma, some hue =>
                  some ⟨lightness, chroma * env.cosDeg hue, chroma * env.sinDeg hue, alpha⟩
                | _, _ => none
          | _ => none
    else none
  | _ => none

/-- Math.sign. -/
def qSign (q : ℚ) : ℚ := if 0 < q then 1 else if q < 0 then -1 else 0

/-- gammaEncodeSrgb(linear): the sRGB transfer function, linear segment
below abs = 0.0031308, signed power segment above, clamped to [0, 1];
pow(abs, 1/2.4) is the environment's powInv24. -/
def gammaEncodeSrgb (env : NumericEnv) (linear : ℚ) : ℚ :=
  let ab := |linear|
  let encoded :=
    if ab > 0.0031308 then qSign linear * (1.055 * env.powInv24 ab - 0.055)
    else 12.92 * linear
  clampQ encoded 0 1

/-- oklabToSrgb(lightness, a, b): the standard oklab to linear sRGB matrix
followed by per-channel gamma encoding. -/
def oklabToSrgb (env : NumericEnv) (lightness a b : ℚ) : ℚ × ℚ × ℚ :=
  let l := lightness + 0.3963377774 * a + 0.2158037573 * b
  let m := lightness - 0.1055613458 * a - 0.0638541728 * b
  let s := lightness - 0.0894841775 * a - 1.291485548 * b
  let l3 := l * l * l
  let m3 := m * m * m
  let s3 := s * s * s
  let redLinear := 4.0767416621 * l3 - 3.3077115913 * m3 + 0.2309699292 * s3
  let greenLinear := -1.2684380046 * l3 + 2.6097574011 * m3 - 0.3413193965 * s3
  let blueLinear := -0.0041960863 * l3 - 0.7034186147 * m3 + 1.707614701 * s3
  (gammaEncodeSrgb env redLinear, gammaEncodeSrgb env greenLinear,
    gammaEncodeSrgb env blueLinear)

/-- Decimal digit characters of a natural number, most significant first;
the fuel argument starts above the number and never runs out. -/
def natToDigitsAux : Nat → Nat → List Char → List Char
  | 0, _, acc => acc
  | fuel + 1, n, acc =>
    let acc2 := Nat.digitChar (n % 10) :: acc
    if n < 10 then acc2 else natToDigitsAux fuel (n / 10) acc2

/-- Decimal rendering of a natural number. -/
def natToString (n : Nat) : String := String.mk (natToDigitsAux (n + 1) n [])

/-- Decimal rendering of an integer (the template-literal rendering of a
JavaScript integer). -/
def intToString (n : ℤ) : String :=
  if n < 0 then "-" ++ natToString n.natAbs else natToString n.natAbs

/-- Trailing zeros of a fraction rendering stripped. -/
def stripTrailingZeros (l : List Char) : List Char :=
  (l.reverse.dropWhile (fun c => c == '0')).reverse

/-- Number(alpha.toFixed(4)) rendered as a template literal: round to four
decimal places, then print without trailing fraction zeros. -/
def alphaToString (alpha : ℚ) : String :=
  let scaled : ℤ := jsRound (alpha * 10000)
  if scaled % 10000 = 0 then intToString (scaled / 10000)
  else
    let fracPart := (scaled % 10000).natAbs
    let ds := natToDigitsAux (fracPart + 1) fracPart []
    intToString (scaled / 10000) ++ "." ++
      String.mk (stripTrailingZeros (List.replicate (4 - ds.length) '0' ++ ds))

/-- toRgbCssString(red, green, blue, alpha): channels clamped to [0,1],
scaled to 0..255 and rounded; rgb(...) when alpha is at least 1, else
rgba(...) with the alpha at four decimal places. -/
def toRgbCssString (red green blue alpha : ℚ) : String :=
  let r255 := jsRound (clampQ red 0 1 * 255)
  let g255 := jsRound (clampQ green 0 1 * 255)
  let b255 := jsRound (clampQ blue 0 1 * 255)
  if 1 ≤ alpha then
    "rgb(" ++ intToString r255 ++ ", " ++ intToString g255 ++ ", " ++
      intToString b255 ++ ")"
  else
    "rgba(" ++ intToString r255 ++ ", " ++ intToString g255 ++ ", " ++
      intToString b255 ++ ", " ++ alphaToString alpha ++ ")"

/-- resolveOklTokenWithBrowser(token) with the live-DOM probe abstracted as
a pure function (the memo cache is semantically transparent for a pure
probe and is not modelled): a probe result is accepted when non-empty and
free of the unsupported function names.  A none probe models the headless
case in which no resolver element exists. -/
def resolveOklTokenWithBrowser (probe : String → Option String) (token : String) :
    Option String :=
  match probe token with
  | none => none
  | some resolved =>
    if resolved = "" then none
    else if hasUnsupportedColorFunction resolved then none
    else some resolved

/-- normalizeOklColorToken(token): the browser probe result when available,
else the closed-form numeric fallback, else the token unchanged. -/
def normalizeOklColorToken (env : NumericEnv) (probe : String → Option String)
    (token : String) : String :=
  match resolveOklTokenWithBrowser probe token with
  | some browserResolved => browserResolved
  | none =>
    match parseOklToken env token.toList with
    | none => token
    | some p =>
      let rgb := oklabToSrgb env p.lightness p.a p.b
      toRgbCssString rgb.1 rgb.2.1 rgb.2.2 p.alpha

/-- JavaScript regex word character (the \w class, which the boundary \b is
defined from): ASCII letters, digits and underscore. -/
def isWordChar (c : Char) : Bool := c.isAlpha || c.isDigit || c == '_'

/-- Split at the first closing parenthesis: the [^)]* body and the text
after the parenthesis; none when no closing parenthesis exists. -/
def splitAtCloseParen : List Char → Option (List Char × List Char)
  | [] => none
  | c :: rest =>
    if c = ')' then some ([], rest)
    else
      match splitAtCloseParen rest with
      | none => none
      | some (body, tail) => some (c :: body, tail)

/-- Attempt to match the token pattern okl(ab|ch) openParen [^)]*
closeParen, case-insensitively, at the head of the list (the word boundary
is checked by the caller).  On success: the full matched token and the text
after it. -/
def matchOklAt (s : List Char) : Option (List Char × List Char) :=
  match s with
  | c1 :: c2 :: c3 :: c4 :: c5 :: c6 :: rest =>
    if lowerChar c1 = 'o' ∧ lowerChar c2 = 'k' ∧ lowerChar c3 = 'l' ∧ c6 = '(' ∧
        ((lowerChar c4 = 'a' ∧ lowerChar c5 = 'b') ∨ (lowerChar c4 = 'c' ∧ lowerChar c5 = 'h')) then
      match splitAtCloseParen rest with
      | none => none
      | some (body, tail) =>
        some (c1 :: c2 :: c3 :: c4 :: c5 :: c6 :: (body ++ [')']), tail)
    else none
  | _ => none

theorem splitAtCloseParen_append (s : List Char) :
    ∀ body tail, splitAtCloseParen s = some (body, tail) →
      s = body ++ ')' :: tail ∧ ')' ∉ body := by
  induction s with
  | nil => intro body tail h; exact Option.noConfusion h
  | cons c rest ih =>
    intro body tail h
    by_cases hc : c = ')'
    · rw [splitAtCloseParen, if_pos hc] at h
      obtain ⟨h1, h2⟩ := Prod.mk.injEq _ _ _ _ ▸ Option.some.injEq _ _ ▸ h
      subst h1; subst h2
      simp [hc]
    · rw [splitAtCloseParen, if_neg hc] at h
      cases hsub : splitAtCloseParen rest with
      | none => rw [hsub] at h; exact Option.noConfusion h
      | some p =>
        rw [hsub] at h
        obtain ⟨body2, tail2⟩ := p
        obtain ⟨h1, h2⟩ := Prod.mk.injEq _ _ _ _ ▸ Option.some.injEq _ _ ▸ h
        obtain ⟨hb, ht⟩ := ih body2 tail2 hsub
        subst h2
        rw [← h1]
        constructor
        · rw [hb]; rfl
        · intro hmem
          rcases List.mem_cons.mp hmem with hh | hh
          · exact hc hh.symm
          · exact ht hh

theorem splitAtCloseParen_of_no_paren (s : List Char) (h : ')' ∉ s) :
    splitAtCloseParen s = none := by
  induction s with
  | nil => rfl
  | cons c rest ih =>
    have hc : ¬ c = ')' := fun hcc => h (hcc ▸ List.mem_cons_self c rest)
    rw [splitAtCloseParen, if_neg hc, ih (fun hm => h (List.mem_cons_of_mem c hm))]

theorem splitAtCloseParen_rebuild (body tail : List Char) (h : ')' ∉ body) :
    splitAtCloseParen (body ++ ')' :: tail) = some (body, tail) := by
  induction body with
  | nil => rfl
  | cons c rest ih =>
    have hc : ¬ c = ')' := fun hcc => h (hcc ▸ List.mem_cons_self c rest)
    rw [List.cons_append, splitAtCloseParen, if_neg hc,
      ih (fun hm => h (List.mem_cons_of_mem c hm))]

theorem matchOklAt_some (s tok tail : List Char) (h : matchOklAt s = some (tok, tail)) :
    ∃ c1 c2 c3 c4 c5 body,
      s = tok ++ tail ∧
      tok = c1 :: c2 :: c3 :: c4 :: c5 :: '(' :: (body ++ [')']) ∧
      lowerChar c1 = 'o' ∧ lowerChar c2 = 'k' ∧ lowerChar c3 = 'l' ∧
      ((lowerChar c4 = 'a' ∧ lowerChar c5 = 'b') ∨ (lowerChar c4 = 'c' ∧ lowerChar c5 = 'h')) ∧
      ')' ∉ body := by
  match s with
  | [] => exact Option.noConfusion h
  | [c1] => exact Option.noConfusion h
  | [c1, c2] => exact Option.noConfusion h
  | [c1, c2, c3] => exact Option.noConfusion h
  | [c1, c2, c3, c4] => exact Option.noConfusion h
  | [c1, c2, c3, c4, c5] => exact Option.noConfusion h
  | c1 :: c2 :: c3 :: c4 :: c5 :: c6 :: rest =>
    rw [matchOklAt] at h
    by_cases hcond : lowerChar c1 = 'o' ∧ lowerChar c2 = 'k' ∧ lowerChar c3 = 'l' ∧ c6 = '(' ∧
        ((lowerChar c4 = 'a' ∧ lowerChar c5 = 'b') ∨ (lowerChar c4 = 'c' ∧ lowerChar c5 = 'h'))
    · rw [if_pos hcond] at h
      cases hsub : splitAtCloseParen rest with
      | none => rw [hsub] at h; exact Option.noConfusion h
      | some p =>
        rw [hsub] at h
        obtain ⟨body, tail2⟩ := p
        obtain ⟨hb, hnp⟩ := splitAtCloseParen_append rest body tail2 hsub
        obtain ⟨h1, h2⟩ := Prod.mk.injEq _ _ _ _ ▸ Option.some.injEq _ _ ▸ h
        refine ⟨c1, c2, c3, c4, c5, body, ?_, ?_, hcond.1, hcond.2.1, hcond.2.2.1,
          hcond.2.2.2.2, hnp⟩
        · rw [← h1, ← h2, hb, hcond.2.2.2.1]
          simp
        · rw [← h1, hcond.2.2.2.1]
    · rw [if_neg hcond] at h
      exact Option.noConfusion h

theorem matchOklAt_rebuild (c1 c2 c3 c4 c5 : Char) (body tail : List Char)
    (h1 : lowerChar c1 = 'o') (h2 : lowerChar c2 = 'k') (h3 : lowerChar c3 = 'l')
    (h45 : (lowerChar c4 = 'a' ∧ lowerChar c5 = 'b') ∨ (lowerChar c4 = 'c' ∧ lowerChar c5 = 'h'))
    (hnp : ')' ∉ body) :
    matchOklAt ((c1 :: c2 :: c3 :: c4 :: c5 :: '(' :: (body ++ [')'])) ++ tail) =
      some (c1 :: c2 :: c3 :: c4 :: c5 :: '(' :: (body ++ [')']), tail) := by
  have hre : (body ++ [')']) ++ tail = body ++ ')' :: tail := by simp
  rw [List.cons_append, List.cons_append, List.cons_append, List.cons_append,
    List.cons_append, List.cons_append, matchOklAt, hre,
    splitAtCloseParen_rebuild body tail hnp,
    if_pos ⟨h1, h2, h3, rfl, h45⟩]

theorem matchOklAt_head (c : Char) (rest tok tail : List Char)
    (h : matchOklAt (c :: rest) = some (tok, tail)) : lowerChar c = 'o' := by
  obtain ⟨c1, c2, c3, c4, c5, body, hs, htok, h1, _, _, _, _⟩ :=
    matchOklAt_some (c :: rest) tok tail h
  rw [htok] at hs
  injection hs with hc _
  rw [hc]; exact h1

theorem matchOklAt_none_of_head (c : Char) (rest : List Char)
    (h : lowerChar c ≠ 'o') : matchOklAt (c :: rest) = none := by
  cases hm : matchOklAt (c :: rest) with
  | none => rfl
  | some p => exact absurd (matchOklAt_head c rest p.1 p.2 (by rw [hm])) h

theorem matchOklAt_tail_length (s tok tail : List Char)
    (h : matchOklAt s = some (tok, tail)) : tail.length + 7 ≤ s.length := by
  obtain ⟨c1, c2, c3, c4, c5, body, hs, htok, _⟩ := matchOklAt_some s tok tail h
  rw [hs, htok]
  simp

/-- The global replace of OKLCH_LIKE_TOKEN_PATTERN: scan left to right;
at a position with a word boundary (previous character not a word
character), replace a pattern match with f of the matched token and resume
after it (the previous character is then the closing parenthesis, not a
word character); otherwise copy one character. -/
def replaceOklAux (f : String → String) (prevW : Bool) (s : List Char) : List Char :=
  match s with
  | [] => []
  | c :: rest =>
    if prevW then c :: replaceOklAux f (isWordChar c) rest
    else
      match hm : matchOklAt (c :: rest) with
      | some (tok, tail) => (f (String.mk tok)).toList ++ replaceOklAux f false tail
      | none => c :: replaceOklAux f (isWordChar c) rest
termination_by s.length
decreasing_by
  all_goals simp only [List.length_cons]
  · omega
  · have h := matchOklAt_tail_length _ _ _ hm
    simp only [List.length_cons] at h
    omega
  · omega

/-- normalizeOklColorsInValue(value): every okl token occurrence replaced
through normalizeOklColorToken. -/
def normalizeOklColorsInValue (env : NumericEnv) (probe : String → Option String)
    (value : String) : String :=
  String.mk (replaceOklAux (normalizeOklColorToken env probe) false value.toList)

/-- The headless probe: no document, hence no resolver element and no
browser resolution. -/
def probeNone : String → Option String := fun _ => none

theorem cssNumberVal_one : cssNumberVal ['1'] = 1 := by
  have h : cssNumberVal ['1'] =
      signVal ['1'] * ((digitsToNat ['1'] : ℕ) : ℚ) * expVal [] := rfl
  have hd : digitsToNat ['1'] = 1 := by decide
  have hs : signVal ['1'] = 1 := by
    simp [signVal, show isNegSign ['1'] = false from by decide]
  have he : expVal [] = 1 := rfl
  rw [h, hd, hs, he]
  norm_num

theorem cssNumberVal_zero : cssNumberVal ['0'] = 0 := by
  have h : cssNumberVal ['0'] =
      signVal ['0'] * ((digitsToNat ['0'] : ℕ) : ℚ) * expVal [] := rfl
  have hd : digitsToNat ['0'] = 0 := by decide
  rw [h, hd]
  norm_num

theorem gammaEncodeSrgb_one (env : NumericEnv) (hp : env.powInv24 1 = 1) :
    gammaEncodeSrgb env 1 = 1 := by
  have habs : |(1 : ℚ)| = 1 := by norm_num
  simp only [gammaEncodeSrgb, habs, hp]
  norm_num [qSign, clampQ]

theorem gammaEncodeSrgb_zero (env : NumericEnv) : gammaEncodeSrgb env 0 = 0 := by
  have habs : |(0 : ℚ)| = 0 := by norm_num
  simp only [gammaEncodeSrgb, habs]
  norm_num [clampQ]

theorem oklabToSrgb_white (env : NumericEnv) (hp : env.powInv24 1 = 1) :
    oklabToSrgb env 1 0 0 = (1, 1, 1) := by
  simp only [oklabToSrgb]
  norm_num [gammaEncodeSrgb_one env hp]

theorem oklabToSrgb_black (env : NumericEnv) :
    oklabToSrgb env 0 0 0 = (0, 0, 0) := by
  simp only [oklabToSrgb]
  norm_num [gammaEncodeSrgb_zero env]

theorem toRgbCssString_white : toRgbCssString 1 1 1 1 = "rgb(255, 255, 255)" := by
  have h255 : jsRound (clampQ 1 0 1 * 255) = 255 := by
    norm_num [clampQ, jsRound]
  have h1 : (1 : ℚ) ≤ 1 := le_refl 1
  simp only [toRgbCssString, h255, if_pos h1]
  decide

theorem toRgbCssString_black : toRgbCssString 0 0 0 1 = "rgb(0, 0, 0)" := by
  have h0 : jsRound (clampQ 0 0 1 * 255) = 0 := by
    norm_num [clampQ, jsRound]
  have h1 : (1 : ℚ) ≤ 1 := le_refl 1
  simp only [toRgbCssString, h0, if_pos h1]
  decide

/-- C7.  Closed-form oklab fallback determinism: with no live-DOM probe, an
oklab token with lightness 1 and both axes 0 normalizes to exactly
rgb(255, 255, 255), and one with lightness 0 to exactly rgb(0, 0, 0), for
every numeric environment whose power function fixes 1 (as IEEE Math.pow
does). -/
theorem normalizeOklColorToken_closed_form (env : NumericEnv)
    (hp : env.powInv24 1 = 1) :
    normalizeOklColorToken env probeNone "oklab(1 0 0)" = "rgb(255, 255, 255)" ∧
    normalizeOklColorToken env probeNone "oklab(0 0 0)" = "rgb(0, 0, 0)" := by
  have hparse1 : parseOklToken env "oklab(1 0 0)".toList =
      some ⟨clampQ (cssNumberVal ['1']) 0 1, cssNumberVal ['0'], cssNumberVal ['0'], 1⟩ :=
    rfl
  have hparse0 : parseOklToken env "oklab(0 0 0)".toList =
      some ⟨clampQ (cssNumberVal ['0']) 0 1, cssNumberVal ['0'], cssNumberVal ['0'], 1⟩ :=
    rfl
  have hclamp1 : clampQ (cssNumberVal ['1']) 0 1 = 1 := by
    rw [cssNumberVal_one]; norm_num [clampQ]
  have hclamp0 : clampQ (cssNumberVal ['0']) 0 1 = 0 := by
    rw [cssNumberVal_zero]; norm_num [clampQ]
  constructor
  · show (match parseOklToken env "oklab(1 0 0)".toList with
      | none => "oklab(1 0 0)"
      | some p =>
        let rgb := oklabToSrgb env p.lightness p.a p.b
        toRgbCssString rgb.1 rgb.2.1 rgb.2.2 p.alpha) = "rgb(255, 255, 255)"
    rw [hparse1]
    simp only [hclamp1, cssNumberVal_zero]
    rw [show oklabToSrgb env 1 0 0 = (1, 1, 1) from oklabToSrgb_white env hp]
    exact toRgbCssString_white
  · show (match parseOklToken env "oklab(0 0 0)".toList with
      | none => "oklab(0 0 0)"
      | some p =>
        let rgb := oklabToSrgb env p.lightness p.a p.b
        toRgbCssString rgb.1 rgb.2.1 rgb.2.2 p.alpha) = "rgb(0, 0, 0)"
    rw [hparse0]
    simp only [hclamp0]
    simp only [cssNumberVal_zero]
    rw [show oklabToSrgb env 0 0 0 = (0, 0, 0) from oklabToSrgb_black env]
    exact toRgbCssString_black

/-- Witness for C7 with the identity-at-1 environment. -/
theorem normalizeOklColorToken_closed_form_witness :
    normalizeOklColorToken ⟨fun _ => 1, fun _ => 1, fun _ => 0, fun x => x⟩ probeNone
      "oklab(1 0 0)" = "rgb(255, 255, 255)" :=
  (normalizeOklColorToken_closed_form ⟨fun _ => 1, fun _ => 1, fun _ => 0, fun x => x⟩
    rfl).1

theorem replaceOklAux_nil (f : String → String) (w : Bool) :
    replaceOklAux f w [] = [] := by
  rw [replaceOklAux]

theorem replaceOklAux_blocked (f : String → String) (c : Char) (rest : List Char) :
    replaceOklAux f true (c :: rest) = c :: replaceOklAux f (isWordChar c) rest := by
  rw [replaceOklAux]
  rw [if_pos rfl]

theorem replaceOklAux_matched (f : String → String) (c : Char) (rest tok tail : List Char)
    (h : matchOklAt (c :: rest) = some (tok, tail)) :
    replaceOklAux f false (c :: rest) =
      (f (String.mk tok)).toList ++ replaceOklAux f false tail := by
  rw [replaceOklAux]
  rw [if_neg (by simp : ¬ (false = true))]
  split
  · rename_i heq
    rw [h] at heq
    obtain ⟨h1, h2⟩ := Prod.mk.injEq _ _ _ _ ▸ Option.some.injEq _ _ ▸ heq
    rw [h1, h2]
  · rename_i heq
    rw [h] at heq
    exact Option.noConfusion heq

theorem replaceOklAux_unmatched (f : String → String) (c : Char) (rest : List Char)
    (h : matchOklAt (c :: rest) = none) :
    replaceOklAux f false (c :: rest) = c :: replaceOklAux f (isWordChar c) rest := by
  rw [replaceOklAux]
  rw [if_neg (by simp : ¬ (false = true))]
  split
  · rename_i heq
    rw [h] at heq
    exact Option.noConfusion heq
  · rfl

theorem replaceOklAux_copy (f : String → String) (w : Bool) (c : Char) (rest : List Char)
    (h : matchOklAt (c :: rest) = none) :
    replaceOklAux f w (c :: rest) = c :: replaceOklAux f (isWordChar c) rest := by
  cases w
  · exact replaceOklAux_unmatched f c rest h
  · exact replaceOklAux_blocked f c rest

theorem matchOklAt_mem_paren (s tok tail : List Char)
    (h : matchOklAt s = some (tok, tail)) : ')' ∈ s := by
  obtain ⟨c1, c2, c3, c4, c5, body, hs, htok, _⟩ := matchOklAt_some s tok tail h
  rw [hs, htok]
  simp

/-- A list without a closing parenthesis is scanned unchanged: no token can
match. -/
theorem replaceOklAux_no_paren (f : String → String) :
    ∀ (s : List Char) (w : Bool), ')' ∉ s → replaceOklAux f w s = s := by
  intro s
  induction s with
  | nil => intro w _; exact replaceOklAux_nil f w
  | cons c rest ih =>
    intro w h
    have hm : matchOklAt (c :: rest) = none := by
      cases hmm : matchOklAt (c :: rest) with
      | none => rfl
      | some p => exact absurd (matchOklAt_mem_paren _ p.1 p.2 (by rw [hmm])) h
    rw [replaceOklAux_copy f w c rest hm,
      ih (isWordChar c) (fun hmem => h (List.mem_cons_of_mem c hmem))]

/-- A list shorter than seven characters is scanned unchanged: the token
pattern needs at least seven. -/
theorem replaceOklAux_short (f : String → String) :
    ∀ (s : List Char) (w : Bool), s.length < 7 → replaceOklAux f w s = s := by
  intro s
  induction s with
  | nil => intro w _; exact replaceOklAux_nil f w
  | cons c rest ih =>
    intro w h
    have hm : matchOklAt (c :: rest) = none := by
      cases hmm : matchOklAt (c :: rest) with
      | none => rfl
      | some p =>
        have := matchOklAt_tail_length (c :: rest) p.1 p.2 (by rw [hmm])
        simp only [List.length_cons] at this h
        omega
    rw [replaceOklAux_copy f w c rest hm]
    rw [ih (isWordChar c) (by simp only [List.length_cons] at h; omega)]

/-- A run of word characters under a blocked boundary is copied unchanged,
leaving the boundary blocked. -/
theorem replaceOklAux_word_run (f : String → String) :
    ∀ (p : List Char) (X : List Char), (∀ c ∈ p, isWordChar c = true) →
      replaceOklAux f true (p ++ X) = p ++ replaceOklAux f true X := by
  intro p
  induction p with
  | nil => intro X _; rfl
  | cons c p2 ih =>
    intro X h
    rw [List.cons_append, replaceOklAux_blocked, h c (List.mem_cons_self c p2),
      ih X (fun d hd => h d (List.mem_cons_of_mem c hd))]
    rfl

/-- The word status of the character preceding the continuation after a
copied prefix. -/
def endWord (w : Bool) : List Char → Bool
  | [] => w
  | c :: p => endWord (isWordChar c) p

theorem endWord_getLast (w : Bool) :
    ∀ (p : List Char) (c : Char), p.getLast? = some c → endWord w p = isWordChar c := by
  intro p
  induction p generalizing w with
  | nil => intro c h; exact Option.noConfusion h
  | cons d p2 ih =>
    intro c h
    cases p2 with
    | nil =>
      simp only [List.getLast?_singleton, Option.some.injEq] at h
      rw [h]
      rfl
    | cons e p3 =>
      rw [show endWord w (d :: e :: p3) = endWord (isWordChar d) (e :: p3) from rfl]
      exact ih (isWordChar d) c (by rwa [List.getLast?_cons_cons] at h)

/-- A chunk free of the letter o (in either case) is scanned unchanged: no
token match can start at or inside it, and scanning resumes after it with
its last character's word status. -/
theorem replaceOklAux_clean_chunk (f : String → String) :
    ∀ (p : List Char) (X : List Char) (w : Bool), (∀ c ∈ p, lowerChar c ≠ 'o') →
      replaceOklAux f w (p ++ X) = p ++ replaceOklAux f (endWord w p) X := by
  intro p
  induction p with
  | nil => intro X w _; rfl
  | cons c p2 ih =>
    intro X w h
    have hm : matchOklAt (c :: (p2 ++ X)) = none :=
      matchOklAt_none_of_head c (p2 ++ X) (h c (List.mem_cons_self c p2))
    rw [List.cons_append, replaceOklAux_copy f w c (p2 ++ X) hm,
      ih X (isWordChar c) (fun d hd => h d (List.mem_cons_of_mem c hd))]
    rfl

theorem digitChar_no_o (d : Nat) (hd : d < 10) : lowerChar (Nat.digitChar d) ≠ 'o' := by
  interval_cases d <;> decide

theorem natToDigitsAux_no_o :
    ∀ (fuel n : Nat) (acc : List Char), (∀ c ∈ acc, lowerChar c ≠ 'o') →
      ∀ c ∈ natToDigitsAux fuel n acc, lowerChar c ≠ 'o' := by
  intro fuel
  induction fuel with
  | zero => intro n acc hacc; exact hacc
  | succ fuel2 ih =>
    intro n acc hacc
    have hacc2 : ∀ c ∈ Nat.digitChar (n % 10) :: acc, lowerChar c ≠ 'o' := by
      intro c hc
      rcases List.mem_cons.mp hc with hh | hh
      · rw [hh]; exact digitChar_no_o (n % 10) (Nat.mod_lt n (by norm_num))
      · exact hacc c hh
    rw [natToDigitsAux]
    split_ifs with hsmall
    · exact hacc2
    · exact ih (n / 10) _ hacc2

theorem intToString_no_o (n : ℤ) : ∀ c ∈ (intToString n).toList, lowerChar c ≠ 'o' := by
  intro c hc
  rw [intToString] at hc
  split_ifs at hc with hneg
  · rcases List.mem_append.mp hc with hh | hh
    · have : c = '-' := by simpa using hh
      rw [this]; decide
    · exact natToDigitsAux_no_o _ _ [] (by intro d hd; exact absurd hd (List.not_mem_nil d)) c hh
  · exact natToDigitsAux_no_o _ _ [] (by intro d hd; exact absurd hd (List.not_mem_nil d)) c hc

theorem mem_of_mem_dropWhileChars (p : Char → Bool) :
    ∀ (l : List Char) (c : Char), c ∈ l.dropWhile p → c ∈ l := by
  intro l
  induction l with
  | nil => intro c hc; exact hc
  | cons d l2 ih =>
    intro c hc
    rw [List.dropWhile_cons] at hc
    split_ifs at hc with hd
    · exact List.mem_cons_of_mem d (ih c hc)
    · exact hc

theorem stripTrailingZeros_subset (l : List Char) :
    ∀ c ∈ stripTrailingZeros l, c ∈ l := by
  intro c hc
  rw [stripTrailingZeros] at hc
  have h1 := List.mem_reverse.mp hc
  have h2 := mem_of_mem_dropWhileChars _ _ c h1
  exact List.mem_reverse.mp h2

theorem alphaToString_no_o (a : ℚ) : ∀ c ∈ (alphaToString a).toList, lowerChar c ≠ 'o' := by
  intro c hc
  rw [alphaToString] at hc
  split_ifs at hc with hint
  · exact intToString_no_o _ c hc
  · rcases List.mem_append.mp hc with hh | hh
    · rcases List.mem_append.mp hh with h3 | h3
      · exact intToString_no_o _ c h3
      · have : c = '.' := by simpa using h3
        rw [this]; decide
    · have h4 := stripTrailingZeros_subset _ c hh
      rcases List.mem_append.mp h4 with h5 | h5
      · have : c = '0' := List.eq_of_mem_replicate h5
        rw [this]; decide
      · exact natToDigitsAux_no_o _ _ [] (by intro d hd; exact absurd hd (List.not_mem_nil d)) c h5

theorem toRgbCssString_clean (r g b a : ℚ) :
    (∀ c ∈ (toRgbCssString r g b a).toList, lowerChar c ≠ 'o') ∧
    (toRgbCssString r g b a).toList.getLast? = some ')' := by
  rw [toRgbCssString]
  split_ifs with ha
  · have htl : ("rgb(" ++ intToString (jsRound (clampQ r 0 1 * 255)) ++ ", " ++
        intToString (jsRound (clampQ g 0 1 * 255)) ++ ", " ++
        intToString (jsRound (clampQ b 0 1 * 255)) ++ ")").toList =
        ("rgb(".toList ++ (intToString (jsRound (clampQ r 0 1 * 255))).toList ++
          ", ".toList ++ (intToString (jsRound (clampQ g 0 1 * 255))).toList ++
          ", ".toList ++ (intToString (jsRound (clampQ b 0 1 * 255))).toList) ++ [')'] := rfl
    constructor
    · intro c hc
      rw [htl] at hc
      simp only [List.mem_append, List.mem_singleton] at hc
      rcases hc with (((((h1 | h2) | h3) | h4) | h5) | h6) | h7
      · exact (by decide : ∀ x ∈ "rgb(".toList, lowerChar x ≠ 'o') c h1
      · exact intToString_no_o _ c h2
      · exact (by decide : ∀ x ∈ ", ".toList, lowerChar x ≠ 'o') c h3
      · exact intToString_no_o _ c h4
      · exact (by decide : ∀ x ∈ ", ".toList, lowerChar x ≠ 'o') c h5
      · exact intToString_no_o _ c h6
      · rw [h7]; decide
    · rw [htl]
      exact List.getLast?_concat _
  · have htl : ("rgba(" ++ intToString (jsRound (clampQ r 0 1 * 255)) ++ ", " ++
        intToString (jsRound (clampQ g 0 1 * 255)) ++ ", " ++
        intToString (jsRound (clampQ b 0 1 * 255)) ++ ", " ++ alphaToString a ++ ")").toList =
        ("rgba(".toList ++ (intToString (jsRound (clampQ r 0 1 * 255))).toList ++
          ", ".toList ++ (intToString (jsRound (clampQ g 0 1 * 255))).toList ++
          ", ".toList ++ (intToString (jsRound (clampQ b 0 1 * 255))).toList ++
          ", ".toList ++ (alphaToString a).toList) ++ [')'] := rfl
    constructor
    · intro c hc
      rw [htl] at hc
      simp only [List.mem_append, List.mem_singleton] at hc
      rcases hc with (((((((h1 | h2) | h3) | h4) | h5) | h6) | h7) | h8) | h9
      · exact (by decide : ∀ x ∈ "rgba(".toList, lowerChar x ≠ 'o') c h1
      · exact intToString_no_o _ c h2
      · exact (by decide : ∀ x ∈ ", ".toList, lowerChar x ≠ 'o') c h3
      · exact intToString_no_o _ c h4
      · exact (by decide : ∀ x ∈ ", ".toList, lowerChar x ≠ 'o') c h5
      · exact intToString_no_o _ c h6
      · exact (by decide : ∀ x ∈ ", ".toList, lowerChar x ≠ 'o') c h7
      · exact alphaToString_no_o _ c h8
      · rw [h9]; decide
    · rw [htl]
      exact List.getLast?_concat _

theorem isWordChar_of_lowerChar (c x : Char) (h : lowerChar c = x)
    (hx : isWordChar x = true) : isWordChar c = true := by
  simp only [lowerChar, Char.toLower] at h
  split_ifs at h with hb
  · have hupper : c.isUpper = true := by
      rw [Char.isUpper, Bool.and_eq_true]
      constructor
      · simp only [GE.ge, UInt32.le_def, BitVec.le_def]
        simpa [Char.toNat, UInt32.toNat] using hb.1
      · simp only [UInt32.le_def, BitVec.le_def]
        simpa [Char.toNat, UInt32.toNat] using hb.2
    rw [isWordChar, Char.isAlpha, hupper]
    simp
  · rw [h]
    exact hx

theorem splitAtCloseParen_none (s : List Char) (h : splitAtCloseParen s = none) :
    ')' ∉ s := by
  induction s with
  | nil => exact List.not_mem_nil ')'
  | cons c rest ih =>
    intro hmem
    by_cases hc : c = ')'
    · rw [splitAtCloseParen, if_pos hc] at h
      exact Option.noConfusion h
    · rw [splitAtCloseParen, if_neg hc] at h
      rcases List.mem_cons.mp hmem with hh | hh
      · exact hc hh.symm
      · cases hsub : splitAtCloseParen rest with
        | none => exact ih hsub hh
        | some p => rw [hsub] at h; exact Option.noConfusion h

theorem matchOklAt_none_of_cond (c1 c2 c3 c4 c5 c6 : Char) (t : List Char)
    (h : ¬(lowerChar c1 = 'o' ∧ lowerChar c2 = 'k' ∧ lowerChar c3 = 'l' ∧ c6 = '(' ∧
      ((lowerChar c4 = 'a' ∧ lowerChar c5 = 'b') ∨ (lowerChar c4 = 'c' ∧ lowerChar c5 = 'h')))) :
    matchOklAt (c1 :: c2 :: c3 :: c4 :: c5 :: c6 :: t) = none := by
  simp only [matchOklAt]
  rw [if_neg h]

theorem matchOklAt_none_c2 (c1 c2 : Char) (t : List Char) (h : lowerChar c2 ≠ 'k') :
    matchOklAt (c1 :: c2 :: t) = none := by
  match t with
  | [] => rfl
  | [_] => rfl
  | [_, _] => rfl
  | [_, _, _] => rfl
  | a :: b :: d :: e :: t2 =>
    exact matchOklAt_none_of_cond c1 c2 a b d e t2 (fun hcond => h hcond.2.1)

theorem matchOklAt_none_c3 (c1 c2 c3 : Char) (t : List Char) (h : lowerChar c3 ≠ 'l') :
    matchOklAt (c1 :: c2 :: c3 :: t) = none := by
  match t with
  | [] => rfl
  | [_] => rfl
  | [_, _] => rfl
  | a :: b :: d :: t2 =>
    exact matchOklAt_none_of_cond c1 c2 c3 a b d t2 (fun hcond => h hcond.2.2.1)

theorem matchOklAt_none_c4 (c1 c2 c3 c4 : Char) (t : List Char)
    (h : lowerChar c4 ≠ 'a' ∧ lowerChar c4 ≠ 'c') :
    matchOklAt (c1 :: c2 :: c3 :: c4 :: t) = none := by
  match t with
  | [] => rfl
  | [_] => rfl
  | a :: b :: t2 =>
    refine matchOklAt_none_of_cond c1 c2 c3 c4 a b t2 (fun hcond => ?_)
    rcases hcond.2.2.2.2 with ⟨ha, _⟩ | ⟨hc, _⟩
    · exact h.1 ha
    · exact h.2 hc

theorem matchOklAt_none_c45 (c1 c2 c3 c4 c5 : Char) (t : List Char)
    (h : ¬((lowerChar c4 = 'a' ∧ lowerChar c5 = 'b') ∨
      (lowerChar c4 = 'c' ∧ lowerChar c5 = 'h'))) :
    matchOklAt (c1 :: c2 :: c3 :: c4 :: c5 :: t) = none := by
  match t with
  | [] => rfl
  | a :: t2 =>
    exact matchOklAt_none_of_cond c1 c2 c3 c4 c5 a t2 (fun hcond => h hcond.2.2.2.2)

theorem matchOklAt_none_c6 (c1 c2 c3 c4 c5 c6 : Char) (t : List Char) (h : c6 ≠ '(') :
    matchOklAt (c1 :: c2 :: c3 :: c4 :: c5 :: c6 :: t) = none :=
  matchOklAt_none_of_cond c1 c2 c3 c4 c5 c6 t (fun hcond => h hcond.2.2.2.1)

/-- If no token matches at an o character, none matches there after the
text following it is scanned under a blocked boundary: the scan copies the
head characters the match inspects, and a missing closing parenthesis
cannot appear. -/
theorem matchOklAt_none_preserved (f : String → String) (c : Char) (rest : List Char)
    (hc : lowerChar c = 'o') (hm : matchOklAt (c :: rest) = none) :
    matchOklAt (c :: replaceOklAux f true rest) = none := by
  match rest with
  | [] => rw [replaceOklAux_nil]; exact hm
  | [r1] => rw [replaceOklAux_short f [r1] true (by norm_num)]; exact hm
  | [r1, r2] => rw [replaceOklAux_short f [r1, r2] true (by norm_num)]; exact hm
  | [r1, r2, r3] => rw [replaceOklAux_short f [r1, r2, r3] true (by norm_num)]; exact hm
  | [r1, r2, r3, r4] => rw [replaceOklAux_short f [r1, r2, r3, r4] true (by norm_num)]; exact hm
  | r1 :: r2 :: r3 :: r4 :: r5 :: rest5 =>
    by_cases hk : lowerChar r1 = 'k'
    case neg =>
      rw [replaceOklAux_blocked]
      exact matchOklAt_none_c2 c r1 _ hk
    case pos =>
    have hwr1 : isWordChar r1 = true := isWordChar_of_lowerChar r1 'k' hk (by decide)
    by_cases hl : lowerChar r2 = 'l'
    case neg =>
      rw [show r1 :: r2 :: r3 :: r4 :: r5 :: rest5 = [r1] ++ (r2 :: r3 :: r4 :: r5 :: rest5)
          from rfl,
        replaceOklAux_word_run f [r1] _ (by intro d hd; rw [List.eq_of_mem_singleton hd]; exact hwr1),
        replaceOklAux_blocked]
      exact matchOklAt_none_c3 c r1 r2 _ hl
    case pos =>
    have hwr2 : isWordChar r2 = true := isWordChar_of_lowerChar r2 'l' hl (by decide)
    by_cases h4 : lowerChar r3 = 'a' ∨ lowerChar r3 = 'c'
    case neg =>
      push_neg at h4
      rw [show r1 :: r2 :: r3 :: r4 :: r5 :: rest5 = [r1, r2] ++ (r3 :: r4 :: r5 :: rest5)
          from rfl,
        replaceOklAux_word_run f [r1, r2] _ (by
          intro d hd
          rcases List.mem_cons.mp hd with hh | hh
          · rw [hh]; exact hwr1
          · rw [List.eq_of_mem_singleton hh]; exact hwr2),
        replaceOklAux_blocked]
      exact matchOklAt_none_c4 c r1 r2 r3 _ h4
    case pos =>
    have hwr3 : isWordChar r3 = true := by
      rcases h4 with hh | hh
      · exact isWordChar_of_lowerChar r3 'a' hh (by decide)
      · exact isWordChar_of_lowerChar r3 'c' hh (by decide)
    by_cases h45 : (lowerChar r3 = 'a' ∧ lowerChar r4 = 'b') ∨
        (lowerChar r3 = 'c' ∧ lowerChar r4 = 'h')
    case neg =>
      rw [show r1 :: r2 :: r3 :: r4 :: r5 :: rest5 = [r1, r2, r3] ++ (r4 :: r5 :: rest5)
          from rfl,
        replaceOklAux_word_run f [r1, r2, r3] _ (by
          intro d hd
          rcases List.mem_cons.mp hd with hh | hh
          · rw [hh]; exact hwr1
          rcases List.mem_cons.mp hh with hh2 | hh2
          · rw [hh2]; exact hwr2
          · rw [List.eq_of_mem_singleton hh2]; exact hwr3),
        replaceOklAux_blocked]
      exact matchOklAt_none_c45 c r1 r2 r3 r4 _ h45
    case pos =>
    have hwr4 : isWordChar r4 = true := by
      rcases h45 with ⟨_, hh⟩ | ⟨_, hh⟩
      · exact isWordChar_of_lowerChar r4 'b' hh (by decide)
      · exact isWordChar_of_lowerChar r4 'h' hh (by decide)
    have hword4 : ∀ d ∈ [r1, r2, r3, r4], isWordChar d = true := by
      intro d hd
      rcases List.mem_cons.mp hd with hh | hh
      · rw [hh]; exact hwr1
      rcases List.mem_cons.mp hh with hh2 | hh2
      · rw [hh2]; exact hwr2
      rcases List.mem_cons.mp hh2 with hh3 | hh3
      · rw [hh3]; exact hwr3
      · rw [List.eq_of_mem_singleton hh3]; exact hwr4
    by_cases hp : r5 = '('
    case neg =>
      rw [show r1 :: r2 :: r3 :: r4 :: r5 :: rest5 = [r1, r2, r3, r4] ++ (r5 :: rest5)
          from rfl,
        replaceOklAux_word_run f [r1, r2, r3, r4] _ hword4,
        replaceOklAux_blocked]
      exact matchOklAt_none_c6 c r1 r2 r3 r4 r5 _ hp
    case pos =>
    have hsplit : splitAtCloseParen rest5 = none := by
      cases hs : splitAtCloseParen rest5 with
      | none => rfl
      | some p =>
        exfalso
        have : matchOklAt (c :: r1 :: r2 :: r3 :: r4 :: r5 :: rest5) =
            some (c :: r1 :: r2 :: r3 :: r4 :: r5 :: (p.1 ++ [')']), p.2) := by
          simp only [matchOklAt]
          rw [if_pos ⟨hc, hk, hl, hp, h45⟩, hs]
        rw [hm] at this
        exact Option.noConfusion this
    have hnp : ')' ∉ rest5 := splitAtCloseParen_none rest5 hsplit
    rw [show r1 :: r2 :: r3 :: r4 :: r5 :: rest5 = [r1, r2, r3, r4] ++ (r5 :: rest5)
        from rfl,
      replaceOklAux_word_run f [r1, r2, r3, r4] _ hword4,
      replaceOklAux_blocked,
      replaceOklAux_no_paren f rest5 (isWordChar r5) hnp]
    exact hm

/-- Idempotence of the scan for a replacement function each of whose
outputs is either the token unchanged or an o-free chunk ending in a
closing parenthesis. -/
theorem replaceOklAux_idem (f : String → String)
    (hf : ∀ tok : String, f tok = tok ∨
      ((∀ c ∈ (f tok).toList, lowerChar c ≠ 'o') ∧ (f tok).toList.getLast? = some ')')) :
    ∀ (n : Nat) (s : List Char), s.length ≤ n → ∀ (w : Bool),
      replaceOklAux f w (replaceOklAux f w s) = replaceOklAux f w s := by
  intro n
  induction n with
  | zero =>
    intro s hs w
    have hnil : s = [] := List.eq_nil_of_length_eq_zero (Nat.le_zero.mp hs)
    rw [hnil, replaceOklAux_nil, replaceOklAux_nil]
  | succ n ih =>
    intro s hs w
    match s with
    | [] => rw [replaceOklAux_nil, replaceOklAux_nil]
    | c :: rest =>
      have hrest : rest.length ≤ n := by
        simp only [List.length_cons] at hs
        omega
      cases w with
      | true =>
        rw [replaceOklAux_blocked, replaceOklAux_blocked, ih rest hrest (isWordChar c)]
      | false =>
        cases hm : matchOklAt (c :: rest) with
        | none =>
          rw [replaceOklAux_unmatched f c rest hm]
          by_cases hco : lowerChar c = 'o'
          · have hwc : isWordChar c = true := isWordChar_of_lowerChar c 'o' hco (by decide)
            have hm2 : matchOklAt (c :: replaceOklAux f (isWordChar c) rest) = none := by
              rw [hwc]
              exact matchOklAt_none_preserved f c rest hco hm
            rw [replaceOklAux_unmatched f c _ hm2, ih rest hrest (isWordChar c)]
          · have hm2 : matchOklAt (c :: replaceOklAux f (isWordChar c) rest) = none :=
              matchOklAt_none_of_head c _ hco
            rw [replaceOklAux_unmatched f c _ hm2, ih rest hrest (isWordChar c)]
        | some p =>
          obtain ⟨tok, tail⟩ := p
          rw [replaceOklAux_matched f c rest tok tail hm]
          have htail : tail.length ≤ n := by
            have := matchOklAt_tail_length _ _ _ hm
            simp only [List.length_cons] at this hs
            omega
          rcases hf (String.mk tok) with hid | hclean
          · obtain ⟨c1, c2, c3, c4, c5, body, hs2, htok, h1, h2, h3, h45, hnp⟩ :=
              matchOklAt_some _ _ _ hm
            subst htok
            have hstring : (f (String.mk
                (c1 :: c2 :: c3 :: c4 :: c5 :: '(' :: (body ++ [')'])))).toList =
                c1 :: c2 :: c3 :: c4 :: c5 :: '(' :: (body ++ [')']) := by
              rw [hid]
              rfl
            rw [hstring]
            have hre : matchOklAt ((c1 :: c2 :: c3 :: c4 :: c5 :: '(' :: (body ++ [')'])) ++
                replaceOklAux f false tail) =
                some (c1 :: c2 :: c3 :: c4 :: c5 :: '(' :: (body ++ [')']),
                  replaceOklAux f false tail) :=
              matchOklAt_rebuild c1 c2 c3 c4 c5 body _ h1 h2 h3 h45 hnp
            rw [show (c1 :: c2 :: c3 :: c4 :: c5 :: '(' :: (body ++ [')'])) ++
                replaceOklAux f false tail =
                c1 :: ((c2 :: c3 :: c4 :: c5 :: '(' :: (body ++ [')'])) ++
                  replaceOklAux f false tail) from rfl] at hre ⊢
            rw [replaceOklAux_matched f c1 _ _ _ hre, hstring, ih tail htail false]
            rfl
          · rw [replaceOklAux_clean_chunk f _ _ false hclean.1]
            have hend : endWord false (f (String.mk tok)).toList = false := by
              rw [endWord_getLast false _ ')' hclean.2]
              decide
            rw [hend, ih tail htail false]

theorem containsSub_of_leads (needle hay : List Char) (h : leadsList needle hay = true) :
    containsSub needle hay = true := by
  cases hay with
  | nil =>
    cases needle with
    | nil => rfl
    | cons n ns => exact absurd h (by rw [leadsList]; simp)
  | cons x xs =>
    rw [containsSub, h]
    rfl

theorem containsSub_tail (needle : List Char) (x : Char) (xs : List Char)
    (h : containsSub needle (x :: xs) = false) : containsSub needle xs = false := by
  rw [containsSub, Bool.or_eq_false_iff] at h
  exact h.2

theorem matchOklAt_none_of_no_okl (s : List Char)
    (hab : containsSub "oklab".toList (lowerList s) = false)
    (hch : containsSub "oklch".toList (lowerList s) = false) :
    matchOklAt s = none := by
  cases hm : matchOklAt s with
  | none => rfl
  | some p =>
    exfalso
    obtain ⟨c1, c2, c3, c4, c5, body, hs2, htok, h1, h2, h3, h45, hnp⟩ :=
      matchOklAt_some s p.1 p.2 (by rw [hm])
    rw [hs2, htok] at hab hch
    rcases h45 with ⟨ha, hb⟩ | ⟨ha, hb⟩
    · have hleads : leadsList "oklab".toList
          (lowerList ((c1 :: c2 :: c3 :: c4 :: c5 :: '(' :: (body ++ [')'])) ++ p.2)) = true := by
        simp [lowerList, leadsList, h1, h2, h3, ha, hb]
      rw [containsSub_of_leads _ _ hleads] at hab
      exact Bool.noConfusion hab
    · have hleads : leadsList "oklch".toList
          (lowerList ((c1 :: c2 :: c3 :: c4 :: c5 :: '(' :: (body ++ [')'])) ++ p.2)) = true := by
        simp [lowerList, leadsList, h1, h2, h3, ha, hb]
      rw [containsSub_of_leads _ _ hleads] at hch
      exact Bool.noConfusion hch

/-- A value free of the substrings oklab and oklch (case-insensitively) is
scanned unchanged. -/
theorem replaceOklAux_no_okl (f : String → String) :
    ∀ (s : List Char) (w : Bool),
      containsSub "oklab".toList (lowerList s) = false →
      containsSub "oklch".toList (lowerList s) = false →
      replaceOklAux f w s = s := by
  intro s
  induction s with
  | nil => intro w _ _; exact replaceOklAux_nil f w
  | cons c rest ih =>
    intro w hab hch
    have hm : matchOklAt (c :: rest) = none := matchOklAt_none_of_no_okl _ hab hch
    rw [replaceOklAux_copy f w c rest hm,
      ih (isWordChar c) (containsSub_tail _ _ _ hab) (containsSub_tail _ _ _ hch)]

/-- Every output of the headless token normalizer is either the token
unchanged (browser probe absent, parse failed) or a closed-form rgb string:
an o-free chunk ending in a closing parenthesis. -/
theorem normalizeOklColorToken_shape (env : NumericEnv) (tok : String) :
    normalizeOklColorToken env probeNone tok = tok ∨
      ((∀ c ∈ (normalizeOklColorToken env probeNone tok).toList, lowerChar c ≠ 'o') ∧
        (normalizeOklColorToken env probeNone tok).toList.getLast? = some ')') := by
  have hshape : normalizeOklColorToken env probeNone tok =
      match parseOklToken env tok.toList with
      | none => tok
      | some p =>
        let rgb := oklabToSrgb env p.lightness p.a p.b
        toRgbCssString rgb.1 rgb.2.1 rgb.2.2 p.alpha := rfl
  rw [hshape]
  cases hp : parseOklToken env tok.toList with
  | none => exact Or.inl rfl
  | some p =>
    exact Or.inr ⟨(toRgbCssString_clean _ _ _ _).1, (toRgbCssString_clean _ _ _ _).2⟩

/-- C8.  Normalizer no-op and idempotence, in the headless (no live probe)
model: a value containing no oklch/oklab substring is returned unchanged,
and for every input value normalizing twice equals normalizing once. -/
theorem normalizeOklColorsInValue_noop_idempotent (env : NumericEnv) (value : String) :
    (hasUnsupportedColorFunction value = false →
      normalizeOklColorsInValue env probeNone value = value) ∧
    normalizeOklColorsInValue env probeNone (normalizeOklColorsInValue env probeNone value) =
      normalizeOklColorsInValue env probeNone value := by
  constructor
  · intro h
    rw [hasUnsupportedColorFunction, Bool.or_eq_false_iff] at h
    have hch : containsSub "oklch".toList (lowerList value.toList) = false := h.1
    have hab : containsSub "oklab".toList (lowerList value.toList) = false := h.2
    show String.mk (replaceOklAux (normalizeOklColorToken env probeNone) false value.toList) =
      value
    rw [replaceOklAux_no_okl _ value.toList false hab hch]
    rfl
  · show String.mk (replaceOklAux (normalizeOklColorToken env probeNone) false
        (replaceOklAux (normalizeOklColorToken env probeNone) false value.toList)) =
      String.mk (replaceOklAux (normalizeOklColorToken env probeNone) false value.toList)
    rw [replaceOklAux_idem (normalizeOklColorToken env probeNone)
      (normalizeOklColorToken_shape env) value.toList.length value.toList le_rfl false]

/-- Witness for C8 at a plain rgb value. -/
theorem normalizeOklColorsInValue_noop_idempotent_witness :
    normalizeOklColorsInValue ⟨fun _ => 1, fun _ => 1, fun _ => 0, fun x => x⟩ probeNone
      "color: rgb(255, 0, 0)" = "color: rgb(255, 0, 0)" :=
  (normalizeOklColorsInValue_noop_idempotent ⟨fun _ => 1, fun _ => 1, fun _ => 0, fun x => x⟩
    "color: rgb(255, 0, 0)").1 (by decide)

end Screenshotter
